import Mathlib

/-! # Blendo registry reconciliation (`blendo/registry/blendo-registry.go`)

A shallow embedding of the diff engine, the schema mapper and the reconciliation
loop, followed by the properties proved about them.

Conventions of the embedding:

* The registry calls (`deleteConfigFromRegistry`, `putConfigToRegistry`) are recorded
  as `Action`s; a piece of code denotes an `Effect`: the calls it issued, in order,
  and whether it was cut short by a failed Go type assertion (a panic).
* Go maps `map[string]interface{}` are association lists read by first binding;
  a nil map is `none`.
-/

namespace Blendo

/-! ## Configuration payloads -/

/-- Modelled from the spec: the dynamic values `interface{}` stored in the configuration
payloads of `backendconfig.SourceT` and `backendconfig.DestinationT` (package
`config/backend-config`, as decoded from JSON). `null` is the nil interface, `num` a JSON number (a finite
`float64`, denoted by its value), `int` a Go `int` as written by `mapDestinationconfig`,
`arr` a `[]interface{}` and `obj` a nested `map[string]interface{}` given by its entries;
an entry whose key already occurs earlier in the list is not part of the map. -/
inductive JVal where
  | null : JVal
  | bool (b : Bool) : JVal
  | num (x : Rat) : JVal
  | int (n : Int) : JVal
  | str (s : String) : JVal
  | arr (xs : List JVal) : JVal
  | obj (kvs : List (String × JVal)) : JVal

/-- Entries of a non-nil `map[string]interface{}`. -/
abbrev ConfigMap := List (String × JVal)

/-- First binding of `key` among the entries, if any. -/
def lookupKey (key : String) : ConfigMap → Option JVal
  | [] => none
  | (k, v) :: rest => if k = key then some v else lookupKey key rest

/-- Number of keys of the map (`len(m)`). -/
def mapLen (m : ConfigMap) : Nat := (m.map Prod.fst).eraseDups.length

/-- Go's `m[key]` on a possibly nil map: the nil interface when the key is absent. -/
def index (m : Option ConfigMap) (key : String) : JVal :=
  match m with
  | none => JVal.null
  | some kvs => (lookupKey key kvs).getD JVal.null

/-- Go's `m[key] = value` on a non-nil map. -/
def assign (key : String) (value : JVal) : ConfigMap → ConfigMap
  | [] => [(key, value)]
  | (k, v) :: rest => if k = key then (k, value) :: rest else (k, v) :: assign key value rest

mutual
/-- Go's `reflect.DeepEqual` on dynamic values: same dynamic type and equal contents;
maps are compared by length and key by key, slices element by element. -/
def deepEqual : JVal → JVal → Bool
  | JVal.null, JVal.null => true
  | JVal.bool a, JVal.bool b => decide (a = b)
  | JVal.num a, JVal.num b => decide (a = b)
  | JVal.int a, JVal.int b => decide (a = b)
  | JVal.str a, JVal.str b => decide (a = b)
  | JVal.arr a, JVal.arr b => deepEqualList a b
  | JVal.obj a, JVal.obj b => mapLen a == mapLen b && deepEqualFields [] a b
  | _, _ => false
/-- Element-wise comparison of two slices. -/
def deepEqualList : List JVal → List JVal → Bool
  | [], [] => true
  | a :: as, b :: bs => deepEqual a b && deepEqualList as bs
  | _, _ => false
/-- Every key of the first map not yet `seen` is bound in `b` to a deeply equal value. -/
def deepEqualFields (seen : List String) : ConfigMap → ConfigMap → Bool
  | [], _ => true
  | (k, v) :: rest, b =>
    (if k ∈ seen then true else
      match lookupKey k b with
      | some w => deepEqual v w
      | none => false) && deepEqualFields (k :: seen) rest b
end

/-- Go's `reflect.DeepEqual` on two `map[string]interface{}` fields: a nil map equals
only a nil map. -/
def deepEqualConfig : Option ConfigMap → Option ConfigMap → Bool
  | none, none => true
  | some a, some b => deepEqual (JVal.obj a) (JVal.obj b)
  | _, _ => false

/-! ## Data model -/

/-- Modelled from the spec: `backendconfig.SourceDefinitionT`, the fields read here. -/
structure SourceDefinitionT where
  Name : String
  Category : String

/-- Modelled from the spec: `backendconfig.DestinationDefinitionT`, the field read here. -/
structure DestinationDefinitionT where
  Name : String

/-- Modelled from the spec: `backendconfig.DestinationT`, the fields read here. -/
structure DestinationT where
  ID : String
  DestinationDefinition : DestinationDefinitionT
  Config : Option ConfigMap
  Deleted : Bool
  IsConnectionEnabled : Bool
  IsProcessorEnabled : Bool

/-- Modelled from the spec: `backendconfig.SourceT`, the fields read here. -/
structure SourceT where
  ID : String
  SourceDefinition : SourceDefinitionT
  Config : Option ConfigMap
  Destinations : List DestinationT
  Deleted : Bool

/-- Modelled from the spec: `backendconfig.SourcesT`, a full snapshot. -/
structure SourcesT where
  Sources : List SourceT

structure BlendoSourceT where
  Role : String
  Options : Option ConfigMap

structure BlendoDestinationT where
  Role : String
  Options : ConfigMap

/-- The schedule; `Kind` is the Go field `Type`. -/
structure BlendoScheduleT where
  Kind : String
  Times : String
  Hour : Int
  Minute : Int
  Second : Int

structure BlendoResourcesT where
  Role : String

/-- The pipeline configuration sent to the registry; `Resources = none` is the nil slice. -/
structure BlendoRegistryPipelineConfigT where
  Source : BlendoSourceT
  Sink : BlendoDestinationT
  Schedule : BlendoScheduleT
  Resources : Option (List BlendoResourcesT)
  Paused : Bool

structure BlendoRegistry where
  currentSourceJSON : SourcesT
  isConfigSet : Bool

/-- The fixed table `mapRoles`, read with the zero value for a missing key. -/
def mapRoles (name : String) : String :=
  if name = "POSTGRES" then "postgres" else ""

/-! ## Registry calls and effects -/

/-- One call to the registry: `DELETE` of a pipeline or `PUT` of its configuration. -/
inductive Action where
  | Remove (id : String) : Action
  | Apply (id : String) (cfg : BlendoRegistryPipelineConfigT) : Action

/-- Pipeline ID an action is addressed to. -/
def Action.id : Action → String
  | Action.Remove id => id
  | Action.Apply id _ => id

/-- What running a piece of code did: the registry calls issued, in order, and whether
the run was cut short by a panic. -/
structure Effect where
  actions : List Action
  panicked : Bool

/-- Nothing happens. -/
def Effect.skip : Effect := ⟨[], false⟩

/-- A failed type assertion: nothing is issued and the goroutine unwinds. -/
def Effect.panic : Effect := ⟨[], true⟩

/-- Sequential composition: the second part runs only if the first did not panic. -/
def Effect.andThen (a b : Effect) : Effect :=
  if a.panicked then a else ⟨a.actions ++ b.actions, b.panicked⟩

/-- A call `f(arg)` whose argument expression may panic before the call is made. -/
def Effect.call {α : Type} (arg : Option α) (f : α → Effect) : Effect :=
  match arg with
  | none => Effect.panic
  | some a => f a

/-- The loop `for _, x := range xs { body }`. -/
def forEach {α : Type} (xs : List α) (body : α → Effect) : Effect :=
  match xs with
  | [] => Effect.skip
  | x :: rest => (body x).andThen (forEach rest body)

/-- The loop `for _, x := range xs { if cond x { found = true; body; break } }`,
returning the flag `found` and what the body did. -/
def forFirst {α : Type} (xs : List α) (cond : α → Bool) (body : α → Effect) : Bool × Effect :=
  match xs with
  | [] => (false, Effect.skip)
  | x :: rest => if cond x then (true, body x) else forFirst rest cond body

/-- Registry call of `putConfigToRegistry`; the returned response is ignored by callers. -/
def putConfigToRegistry (id : String) (data : BlendoRegistryPipelineConfigT) : Effect :=
  ⟨[Action.Apply id data], false⟩

/-- Registry call of `deleteConfigFromRegistry`; the returned response is ignored by callers. -/
def deleteConfigFromRegistry (id : String) : Effect :=
  ⟨[Action.Remove id], false⟩

/-! ## Schema mapper -/

/-- Largest `uint64`. -/
def maxUint64 : Nat := 18446744073709551615

/-- Outcome of the digit loop of `strconv.ParseUint(s, 10, 64)`. -/
inductive ParseUint where
  | value (n : Nat) : ParseUint
  | syntaxError : ParseUint
  | rangeError : ParseUint

/-- Digit loop of `strconv.ParseUint` in base 10 with 64 bits, from accumulator `n`. -/
def parseUintLoop : List Char → Nat → ParseUint
  | [], n => ParseUint.value n
  | c :: cs, n =>
    if '0' ≤ c ∧ c ≤ '9' then
      if n ≥ maxUint64 / 10 + 1 then ParseUint.rangeError
      else if n * 10 + (c.toNat - 48) > maxUint64 then ParseUint.rangeError
      else parseUintLoop cs (n * 10 + (c.toNat - 48))
    else ParseUint.syntaxError

/-- Clamping done by `strconv.ParseInt` on the unsigned magnitude `un` for 64-bit `int`. -/
def clampInt (neg : Bool) (un : Nat) : Int :=
  if !neg && un ≥ 2 ^ 63 then 2 ^ 63 - 1
  else if neg && un > 2 ^ 63 then -(2 ^ 63)
  else if neg then -(un : Int) else (un : Int)

/-- The value `strconv.Atoi(s)` returns (64-bit `int`), its error being discarded:
`0` on a syntax error, the nearest bound on a range error. -/
def atoi (s : String) : Int :=
  match s.data with
  | [] => 0
  | c :: cs =>
    let neg := c == '-'
    let digits := if c == '+' || c == '-' then cs else c :: cs
    match digits with
    | [] => 0
    | _ =>
      match parseUintLoop digits 0 with
      | ParseUint.value n => clampInt neg n
      | ParseUint.syntaxError => 0
      | ParseUint.rangeError => clampInt neg maxUint64

/-- Loop of `getResources`: appends one `BlendoResourcesT` per role; `none` when the
assertion `role.(string)` fails. -/
def getResourcesLoop : List JVal → List BlendoResourcesT → Option (List BlendoResourcesT)
  | [], resourcesArray => some resourcesArray
  | JVal.str role :: rest, resourcesArray => getResourcesLoop rest (resourcesArray ++ [⟨role⟩])
  | _ :: _, _ => none

def getResources (resources : List JVal) : Option (List BlendoResourcesT) :=
  getResourcesLoop resources []

def getPipelineId (sourceId : String) (destinationId : String) : String :=
  sourceId ++ "_" ++ destinationId

/-- Loop of `mapDestinationconfig` over the entries not yet `seen`, writing into
`desConfog`; `none` when the assertion `value.(string)` on the port fails. -/
def mapDestinationconfigLoop (seen : List String) : ConfigMap → ConfigMap → Option ConfigMap
  | [], desConfog => some desConfog
  | (key, value) :: rest, desConfog =>
    if key ∈ seen then mapDestinationconfigLoop seen rest desConfog
    else if key = "user" then
      mapDestinationconfigLoop (key :: seen) rest (assign "username" value desConfog)
    else if key = "port" then
      match value with
      | JVal.str s =>
        mapDestinationconfigLoop (key :: seen) rest (assign "port" (JVal.int (atoi s)) desConfog)
      | _ => none
    else mapDestinationconfigLoop (key :: seen) rest (assign key value desConfog)

/-- The entries of `config` are visited in list order (Go leaves the order open). -/
def mapDestinationconfig (config : Option ConfigMap) : Option ConfigMap :=
  match config with
  | none => some []
  | some kvs => mapDestinationconfigLoop [] kvs []

/-- Lines 268-272 of `getConfig`: the resources of the source; the outer `none` is a panic
of `sourceResourcesList.([]interface{})` or of `getResources`, the inner `none` the nil
slice left when the field is absent. -/
def sourceResources (source : SourceT) : Option (Option (List BlendoResourcesT)) :=
  match index source.Config "resources" with
  | JVal.null => some none
  | JVal.arr xs => (getResources xs).map some
  | _ => none

/-- The pipeline configuration of a pair; `none` when a type assertion panics. -/
def getConfig (source : SourceT) (destination : DestinationT) :
    Option BlendoRegistryPipelineConfigT :=
  match sourceResources source with
  | none => none
  | some resources =>
    match mapDestinationconfig destination.Config with
    | none => none
    | some options =>
      some
        { Source := { Role := source.SourceDefinition.Name, Options := source.Config }
          Sink := { Role := mapRoles destination.DestinationDefinition.Name, Options := options }
          Schedule := { Kind := "once_per_hour", Times := "", Hour := 0, Minute := 0, Second := 0 }
          Resources := resources
          Paused := !destination.IsProcessorEnabled }

/-! ## Diff engine -/

/-- The test `source.SourceDefinition.Category == "cloud"`. -/
def eligible (source : SourceT) : Bool := source.SourceDefinition.Category == "cloud"

/-- Lines 156-167: a destination found in the previous source. -/
def compareDestination (source prevSource : SourceT) (destination prevDestination : DestinationT) :
    Effect :=
  let pipelineId := getPipelineId source.ID destination.ID
  if destination.Deleted != prevDestination.Deleted ||
      (destination.IsConnectionEnabled != prevDestination.IsConnectionEnabled &&
        !destination.IsConnectionEnabled) then
    deleteConfigFromRegistry pipelineId
  else if destination.IsProcessorEnabled != prevDestination.IsProcessorEnabled ||
      (destination.IsConnectionEnabled != prevDestination.IsConnectionEnabled &&
        prevDestination.IsConnectionEnabled) ||
      !deepEqualConfig destination.Config prevDestination.Config ||
      !deepEqualConfig source.Config prevSource.Config then
    Effect.call (getConfig source destination) (putConfigToRegistry pipelineId)
  else Effect.skip

/-- Lines 172-180 and 190-197: a source or destination not found in the previous snapshot. -/
def registerNew (source : SourceT) (destination : DestinationT) : Effect :=
  let pipelineId := getPipelineId source.ID destination.ID
  if source.Deleted || destination.Deleted then deleteConfigFromRegistry pipelineId
  else Effect.call (getConfig source destination) (putConfigToRegistry pipelineId)

/-- Lines 145-181: body of the loop over `source.Destinations` for a source found in the
previous snapshot. -/
def diffDestination (source prevSource : SourceT) (destination : DestinationT) : Effect :=
  let pipelineId := getPipelineId source.ID destination.ID
  if source.Deleted != prevSource.Deleted then deleteConfigFromRegistry pipelineId
  else
    let found := forFirst prevSource.Destinations
      (fun prevDestination => prevDestination.ID == destination.ID)
      (compareDestination source prevSource destination)
    found.2.andThen (if !found.1 then registerNew source destination else Effect.skip)

/-- Lines 136-199: body of the loop over `sources`. -/
def diffSource (br : BlendoRegistry) (source : SourceT) : Effect :=
  if source.SourceDefinition.Category != "cloud" then Effect.skip
  else
    let found :=
      if br.isConfigSet then
        forFirst br.currentSourceJSON.Sources (fun prevSource => prevSource.ID == source.ID)
          (fun prevSource => forEach source.Destinations (diffDestination source prevSource))
      else (false, Effect.skip)
    found.2.andThen
      (if !found.1 then forEach source.Destinations (registerNew source) else Effect.skip)

def calculateDifferencesAndUpdateRegistry (br : BlendoRegistry) (sources : List SourceT) :
    Effect :=
  forEach sources (diffSource br)

/-- Lines 212-223: the destinations of `prevSource` missing from the matching `source`. -/
def removeVanishedDestination (source : SourceT) (prevDestination : DestinationT) : Effect :=
  let found := forFirst source.Destinations
    (fun destination => prevDestination.ID == destination.ID) (fun _ => Effect.skip)
  found.2.andThen
    (if !found.1 then deleteConfigFromRegistry (getPipelineId source.ID prevDestination.ID)
     else Effect.skip)

/-- Lines 207-232: body of the loop over the previous sources. -/
def removeVanished (sources : List SourceT) (prevSource : SourceT) : Effect :=
  if prevSource.SourceDefinition.Category == "cloud" then
    let found := forFirst sources (fun source => prevSource.ID == source.ID)
      (fun source => forEach prevSource.Destinations (removeVanishedDestination source))
    found.2.andThen
      (if !found.1 then
        forEach prevSource.Destinations
          (fun destination => deleteConfigFromRegistry (getPipelineId prevSource.ID destination.ID))
       else Effect.skip)
  else Effect.skip

def deleteRemovedSourcesDestinations (br : BlendoRegistry) (sources : List SourceT) : Effect :=
  forEach br.currentSourceJSON.Sources (removeVanished sources)

def handleSources (br : BlendoRegistry) (sources : List SourceT) : Effect :=
  (if br.isConfigSet then deleteRemovedSourcesDestinations br sources else Effect.skip).andThen
    (calculateDifferencesAndUpdateRegistry br sources)

/-! ## Unique identifiers -/

/-- Source IDs are unique in the snapshot and destination IDs are unique within each source. -/
def uniqueIDs (l : List SourceT) : Prop :=
  (l.map SourceT.ID).Nodup ∧ ∀ s ∈ l, (s.Destinations.map DestinationT.ID).Nodup

instance uniqueIDsDecidable (l : List SourceT) : Decidable (uniqueIDs l) := by
  unfold uniqueIDs
  infer_instance

/-! ## Sample data -/

/-- A pipeline configuration with every field zero. -/
def zeroConfig : BlendoRegistryPipelineConfigT :=
  { Source := ⟨"", none⟩, Sink := ⟨"", []⟩, Schedule := ⟨"", "", 0, 0, 0⟩,
    Resources := none, Paused := false }

/-- A well-formed Postgres destination payload. -/
def pgOptions : Option ConfigMap :=
  some [("host", JVal.str "db"), ("user", JVal.str "rudder"), ("port", JVal.str "5432")]

/-- The same payload on another host. -/
def pgOptionsMoved : Option ConfigMap :=
  some [("host", JVal.str "db2"), ("user", JVal.str "rudder"), ("port", JVal.str "5432")]

/-- A payload whose port is a JSON number, not text. -/
def numericPortOptions : Option ConfigMap :=
  some [("host", JVal.str "db"), ("port", JVal.num 5432)]

/-- Destination `D1`, enabled. -/
def destD1 : DestinationT :=
  { ID := "D1", DestinationDefinition := ⟨"POSTGRES"⟩, Config := pgOptions, Deleted := false,
    IsConnectionEnabled := true, IsProcessorEnabled := true }

/-- Destination `D2`, a sibling of `D1`. -/
def destD2 : DestinationT :=
  { ID := "D2", DestinationDefinition := ⟨"POSTGRES"⟩, Config := pgOptions, Deleted := false,
    IsConnectionEnabled := true, IsProcessorEnabled := true }

/-- Destination `D2` with the connection disabled and the payload moved. -/
def destD2Off : DestinationT :=
  { destD2 with IsConnectionEnabled := false, Config := pgOptionsMoved }

/-- Destination `D2` flagged deleted. -/
def destD2Deleted : DestinationT := { destD2 with Deleted := true }

/-- Destination `D1` with the payload moved to another host. -/
def destD1Moved : DestinationT := { destD1 with Config := pgOptionsMoved }

/-- Destination `D1` with the processor disabled. -/
def destD1Paused : DestinationT := { destD1 with IsProcessorEnabled := false }

/-- Destination `D1` with a numeric port. -/
def destD1Numeric : DestinationT := { destD1 with Config := numericPortOptions }

/-- Eligible source `S1` holding the given destinations. -/
def srcS1 (ds : List DestinationT) : SourceT :=
  { ID := "S1", SourceDefinition := ⟨"salesforce", "cloud"⟩,
    Config := some [("resources", JVal.arr [JVal.str "accounts"])], Destinations := ds,
    Deleted := false }

/-- Source `S2`, eligible, with one destination. -/
def srcS2 : SourceT :=
  { ID := "S2", SourceDefinition := ⟨"zendesk", "cloud"⟩, Config := none,
    Destinations := [destD1], Deleted := false }

/-- Source `S1` of another category. -/
def srcS1Event (ds : List DestinationT) : SourceT :=
  { srcS1 ds with SourceDefinition := ⟨"javascript", "event"⟩ }

/-- Source `S3` of another category, holding a destination with a numeric port. -/
def srcS3Event : SourceT :=
  { ID := "S3", SourceDefinition := ⟨"javascript", "event"⟩, Config := none,
    Destinations := [destD1Numeric], Deleted := true }

/-! ## Eligibility across snapshots and pipeline IDs -/

/-- Every source carrying `id`, in either snapshot, is ineligible. -/
def neverEligible (prev cur : List SourceT) (id : String) : Bool :=
  (prev ++ cur).all (fun s => s.ID != id || !eligible s)

/-- The snapshot `l` without the sources whose ID is ineligible in both `prev` and `cur`. -/
def dropNeverEligible (prev cur l : List SourceT) : List SourceT :=
  l.filter (fun s => !neverEligible prev cur s.ID)

/-- No source ID is eligible in one of the two snapshots and ineligible in the other. -/
def stableEligibility (prev cur : List SourceT) : Prop :=
  ∀ p ∈ prev, ∀ c ∈ cur, p.ID = c.ID → eligible p = eligible c

instance stableEligibilityDecidable (prev cur : List SourceT) :
    Decidable (stableEligibility prev cur) := by
  unfold stableEligibility
  infer_instance

/-- No pair of either snapshot other than `(sid, did)` has the pipeline ID of `(sid, did)`. -/
def pidUnique (prev cur : List SourceT) (sid did : String) : Prop :=
  ∀ x ∈ prev ++ cur, ∀ y ∈ x.Destinations,
    getPipelineId x.ID y.ID = getPipelineId sid did → x.ID = sid ∧ y.ID = did

instance pidUniqueDecidable (prev cur : List SourceT) (sid did : String) :
    Decidable (pidUnique prev cur sid did) := by
  unfold pidUnique
  infer_instance

/-- Source `a` whose destination is `b_c`. -/
def srcA : SourceT :=
  { ID := "a", SourceDefinition := ⟨"salesforce", "cloud"⟩, Config := none,
    Destinations := [{ destD1 with ID := "b_c" }], Deleted := false }

/-- Source `a_b` whose destination is `c`. -/
def srcAB : SourceT :=
  { ID := "a_b", SourceDefinition := ⟨"salesforce", "cloud"⟩, Config := none,
    Destinations := [{ destD1 with ID := "c" }], Deleted := false }

/-- Source `a` with the connection of `b_c` disabled. -/
def srcAOff : SourceT :=
  { srcA with Destinations := [{ destD1 with ID := "b_c", IsConnectionEnabled := false }] }

/-- Source `a_b` with the payload of `c` moved. -/
def srcABMoved : SourceT :=
  { srcAB with Destinations := [{ destD1 with ID := "c", Config := pgOptionsMoved }] }

/-! ## Registry and reconciliation loop -/

/-- The registry as a set of pipeline IDs, every call succeeding: `Apply` inserts its
ID and `Remove` deletes it. -/
def applyAction (registry : List String) : Action → List String
  | Action.Remove id => registry.filter (fun x => x != id)
  | Action.Apply id _ => if id ∈ registry then registry else id :: registry

/-- The registry after the calls of one run, in order. -/
def applyActions (registry : List String) (actions : List Action) : List String :=
  actions.foldl applyAction registry

/-- The state the loop of `backendConfigSubscriber` works on: the struct `br` and the
contents of the external registry. -/
structure LoopState where
  br : BlendoRegistry
  registry : List String

/-- The state at start: the zero `BlendoRegistry` and an empty registry. -/
def initialState : LoopState := ⟨⟨⟨[]⟩, false⟩, []⟩

/-- Lines 303-308: one iteration of the loop on a received snapshot; `none` when
`handleSources` panics, which ends the goroutine before the snapshot is stored. -/
def subscriberStep (st : LoopState) (config : SourcesT) : Option LoopState :=
  let run := handleSources st.br config.Sources
  if run.panicked then none
  else some ⟨⟨config, true⟩, applyActions st.registry run.actions⟩

/-- The loop of `backendConfigSubscriber` over the snapshots received so far. -/
def backendConfigSubscriber (st : LoopState) : List SourcesT → Option LoopState
  | [] => some st
  | config :: rest =>
    match subscriberStep st config with
    | none => none
    | some next => backendConfigSubscriber next rest

/-- Pipeline IDs of the destinations of the eligible sources of a snapshot. -/
def pipelineIDs (l : List SourceT) : List String :=
  (l.filter eligible).flatMap (fun s => s.Destinations.map (fun d => getPipelineId s.ID d.ID))

/-- No ID of an eligible source of `prev` is carried by an ineligible source of `cur`. -/
def keepsEligible (prev cur : SourcesT) : Prop :=
  ∀ p ∈ prev.Sources, eligible p = true → ∀ c ∈ cur.Sources, c.ID = p.ID → eligible c = true

instance keepsEligibleDecidable (prev cur : SourcesT) : Decidable (keepsEligible prev cur) := by
  unfold keepsEligible
  infer_instance

/-- Two snapshots: `S1` with `D1` and `D2`, then `S1` with `D2` only next to `S2`. -/
def sampleFeed : List SourcesT :=
  [⟨[srcS1 [destD1, destD2]]⟩, ⟨[srcS1 [destD2], srcS2]⟩]

/-- The state of the loop after `sampleFeed`. -/
def sampleFinal : LoopState :=
  (backendConfigSubscriber initialState sampleFeed).getD initialState

/-! ## Well-formed identifiers and payloads -/

/-- The identifier contains no underscore. -/
def noUnderscore (s : String) : Prop := '_' ∉ s.data

instance noUnderscoreDecidable (s : String) : Decidable (noUnderscore s) := by
  unfold noUnderscore
  infer_instance

/-- Entries of a possibly nil map. -/
def entriesOf (config : Option ConfigMap) : ConfigMap := config.getD []

/-- What `mapDestinationconfig` writes for one visited entry: the output key and value,
or `none` when the assertion on the port fails. -/
def convertEntry (key : String) (value : JVal) : Option (String × JVal) :=
  if key = "user" then some ("username", value)
  else if key = "port" then
    match value with
    | JVal.str s => some ("port", JVal.int (atoi s))
    | _ => none
  else some (key, value)

/-- The port of the map, when present, is text. -/
def textPort (config : Option ConfigMap) : Prop :=
  ∀ v, lookupKey "port" (entriesOf config) = some v → ∃ s, v = JVal.str s

/-- The field `resources` of the map is absent (or null) or a list of text. -/
def textResources (config : Option ConfigMap) : Prop :=
  index config "resources" = JVal.null ∨
    ∃ roles : List String, index config "resources" = JVal.arr (roles.map JVal.str)

/-- The character is a decimal digit. -/
def isDigit (c : Char) : Prop := '0' ≤ c ∧ c ≤ '9'

instance isDigitDecidable (c : Char) : Decidable (isDigit c) := by
  unfold isDigit
  infer_instance

/-- The natural number denoted by a run of decimal digits, continuing from `n`. -/
def decimalValue : List Char → Nat → Nat
  | [], n => n
  | c :: cs, n => decimalValue cs (n * 10 + (c.toNat - 48))

/-- A source whose resources are text, not a list. -/
def srcBadResources : SourceT :=
  { ID := "S4", SourceDefinition := ⟨"salesforce", "cloud"⟩,
    Config := some [("resources", JVal.str "accounts")], Destinations := [destD1],
    Deleted := false }

/-- A source whose resources list holds a number. -/
def srcBadRole : SourceT :=
  { ID := "S5", SourceDefinition := ⟨"salesforce", "cloud"⟩,
    Config := some [("resources", JVal.arr [JVal.str "accounts", JVal.num 7])],
    Destinations := [destD1], Deleted := false }

/-- The text after an optional leading sign, as `strconv.ParseInt` takes it. -/
def unsignedPart (s : String) : List Char :=
  match s.data with
  | [] => []
  | c :: cs => if c == '+' || c == '-' then cs else c :: cs

/-- Text on which `strconv.Atoi` reports a syntax error: nothing is left after the sign,
or a character that is not a decimal digit follows a run of digits whose value does not
exceed the `uint64` range. -/
def syntaxErrorText (s : String) : Prop :=
  unsignedPart s = [] ∨
    ∃ ds c rest, unsignedPart s = ds ++ c :: rest ∧ (∀ x ∈ ds, isDigit x) ∧ ¬ isDigit c ∧
      decimalValue ds 0 ≤ maxUint64

/-- Text that is a run of decimal digits denoting `n`. -/
def denotes (s : String) (n : Nat) : Prop :=
  s.data ≠ [] ∧ (∀ x ∈ s.data, isDigit x) ∧ decimalValue s.data 0 = n

/-- The map without its port entries. -/
def withoutPort (config : Option ConfigMap) : Option ConfigMap :=
  config.map (fun kvs => kvs.filter (fun e => e.1 != "port"))

/-- A payload holding both `user` and `username`, `user` first. -/
def bothNamesOptions : Option ConfigMap :=
  some [("user", JVal.str "rudder"), ("username", JVal.str "admin")]

/-- A payload whose port is a decimal number above the 64-bit range. -/
def hugePortOptions : Option ConfigMap := some [("port", JVal.str "99999999999999999999")]

/-- A payload whose port is twenty digits followed by a letter. -/
def hugeMalformedPortOptions : Option ConfigMap :=
  some [("port", JVal.str "99999999999999999999x")]

/-- A payload whose port is not a number. -/
def wordPortOptions : Option ConfigMap :=
  some [("host", JVal.str "db"), ("port", JVal.str "abc"), ("user", JVal.str "rudder")]

/-! ## Registry client -/

/-- What the HTTP layer (`Http.NewRequest`, `client.Do`, `IoUtil.ReadAll`) did in one call
of `RequestToRegistry`: building the request failed, executing it failed, or a response
arrived with a status code and the body that was read. -/
inductive Exchange where
  | requestError : Exchange
  | executionError : Exchange
  | response (statusCode : Int) (body : String) : Exchange

/-- What `RequestToRegistry` returns, and whether it wrote an error to the log. -/
structure RegistryResult where
  response : String
  ok : Bool
  errorLogged : Bool

/-- Lines 83-116, as a function of what the HTTP layer did. -/
def RequestToRegistry (exchange : Exchange) : RegistryResult :=
  match exchange with
  | Exchange.requestError => ⟨"", false, true⟩
  | Exchange.executionError => ⟨"", false, true⟩
  | Exchange.response statusCode body =>
    let errorLogged := decide (statusCode ≠ 200) && decide (statusCode ≠ 202)
    ⟨body, true, errorLogged⟩

/-- The configuration mapped for `S1` and `D1`. -/
def sampleConfig : BlendoRegistryPipelineConfigT :=
  (getConfig (srcS1 [destD1]) destD1).getD zeroConfig

/-- Destination `D1` flagged deleted. -/
def destD1Deleted : DestinationT := { destD1 with Deleted := true }

/-- Destination `D1` flagged deleted, with the processor disabled. -/
def destD1DeletedPaused : DestinationT :=
  { destD1 with Deleted := true, IsProcessorEnabled := false }

/-- Eligible source `S0` holding a destination with a numeric port. -/
def srcS0Numeric : SourceT :=
  { ID := "S0", SourceDefinition := ⟨"salesforce", "cloud"⟩, Config := none,
    Destinations := [destD1Numeric], Deleted := false }

/-- Source `S1` flagged deleted. -/
def srcS1Deleted (ds : List DestinationT) : SourceT := { srcS1 ds with Deleted := true }

/-! ## Reflexivity of `reflect.DeepEqual` -/

mutual
theorem deepEqual_refl : ∀ v, deepEqual v v = true
  | JVal.null => by simp [deepEqual]
  | JVal.bool _ => by simp [deepEqual]
  | JVal.num _ => by simp [deepEqual]
  | JVal.int _ => by simp [deepEqual]
  | JVal.str _ => by simp [deepEqual]
  | JVal.arr a => by simp [deepEqual, deepEqualList_refl a]
  | JVal.obj a => by simp [deepEqual, deepEqualFields_refl a [] a (fun _ _ _ h => h)]
theorem deepEqualList_refl : ∀ l, deepEqualList l l = true
  | [] => by simp [deepEqualList]
  | a :: as => by simp [deepEqualList, deepEqual_refl a, deepEqualList_refl as]
theorem deepEqualFields_refl : ∀ (rest : ConfigMap) (seen : List String) (b : ConfigMap),
    (∀ k v, k ∉ seen → lookupKey k rest = some v → lookupKey k b = some v) →
    deepEqualFields seen rest b = true
  | [], _, _, _ => by simp [deepEqualFields]
  | (k, v) :: rest, seen, b, h => by
    have h2 : deepEqualFields (k :: seen) rest b = true := by
      apply deepEqualFields_refl rest
      intro k' v' hk' hl
      simp at hk'
      apply h k' v' hk'.2
      simp [lookupKey, hl, Ne.symm hk'.1]
    by_cases hs : k ∈ seen
    · simp [deepEqualFields, hs, h2]
    · have := h k v hs (by simp [lookupKey])
      simp [deepEqualFields, hs, h2, this, deepEqual_refl v]
end

theorem deepEqualConfig_refl (c : Option ConfigMap) : deepEqualConfig c c = true := by
  cases c with
  | none => rfl
  | some a => exact deepEqual_refl (JVal.obj a)

/-! ## Effects and loops -/

theorem flatMap_unit {α β : Type} (l : List α) (f : α → β) :
    l.flatMap (fun x => [f x]) = l.map f := by
  induction l with
  | nil => rfl
  | cons x xs ih => simp [List.flatMap_cons, ih]

@[simp]
theorem skip_andThen (e : Effect) : Effect.skip.andThen e = e := by
  simp [Effect.andThen, Effect.skip]

@[simp]
theorem andThen_skip (e : Effect) : e.andThen Effect.skip = e := by
  cases e with
  | mk a p => cases p <;> simp [Effect.andThen, Effect.skip]

theorem andThen_assoc (a b c : Effect) : (a.andThen b).andThen c = a.andThen (b.andThen c) := by
  cases a with
  | mk aa ap =>
    cases b with
    | mk ba bp => cases ap <;> cases bp <;> simp [Effect.andThen]

theorem andThen_actions_of_ok (a b : Effect) (h : a.panicked = false) :
    (a.andThen b).actions = a.actions ++ b.actions := by
  simp [Effect.andThen, h]

theorem andThen_panicked_of_ok (a b : Effect) (h : a.panicked = false) :
    (a.andThen b).panicked = b.panicked := by
  simp [Effect.andThen, h]

theorem andThen_ok_left (a b : Effect) (h : (a.andThen b).panicked = false) :
    a.panicked = false := by
  cases a with
  | mk aa ap => cases ap <;> simp_all [Effect.andThen]

theorem andThen_ok_right (a b : Effect) (h : (a.andThen b).panicked = false) :
    b.panicked = false := by
  cases a with
  | mk aa ap => cases ap <;> simp_all [Effect.andThen]

theorem mem_andThen_actions {a b : Effect} {x : Action} (h : x ∈ (a.andThen b).actions) :
    x ∈ a.actions ∨ x ∈ b.actions := by
  cases a with
  | mk aa ap => cases ap <;> simp_all [Effect.andThen]

@[simp]
theorem forEach_nil {α : Type} (f : α → Effect) : forEach [] f = Effect.skip := rfl

@[simp]
theorem forEach_cons {α : Type} (x : α) (xs : List α) (f : α → Effect) :
    forEach (x :: xs) f = (f x).andThen (forEach xs f) := rfl

theorem forEach_append {α : Type} (xs ys : List α) (f : α → Effect) :
    forEach (xs ++ ys) f = (forEach xs f).andThen (forEach ys f) := by
  induction xs with
  | nil => simp
  | cons x xs ih => simp [ih, andThen_assoc]

theorem forEach_congr {α : Type} {xs : List α} {f g : α → Effect}
    (h : ∀ x ∈ xs, f x = g x) : forEach xs f = forEach xs g := by
  induction xs with
  | nil => rfl
  | cons x xs ih =>
    simp only [forEach_cons]
    rw [h x (List.mem_cons_self _ _), ih (fun y hy => h y (List.mem_cons_of_mem _ hy))]

theorem forEach_skip {α : Type} {xs : List α} {f : α → Effect}
    (h : ∀ x ∈ xs, f x = Effect.skip) : forEach xs f = Effect.skip := by
  induction xs with
  | nil => rfl
  | cons x xs ih =>
    simp only [forEach_cons]
    rw [h x (List.mem_cons_self _ _), ih (fun y hy => h y (List.mem_cons_of_mem _ hy))]
    simp

theorem forEach_single {α : Type} {xs ys : List α} {x : α} {f : α → Effect}
    (hx : ∀ y ∈ xs, f y = Effect.skip) (hy : ∀ y ∈ ys, f y = Effect.skip) :
    forEach (xs ++ x :: ys) f = f x := by
  rw [forEach_append, forEach_skip hx, forEach_cons, forEach_skip hy]
  simp

theorem forEach_pure {α : Type} {xs : List α} {f : α → Effect} {g : α → List Action}
    (h : ∀ x ∈ xs, f x = ⟨g x, false⟩) : forEach xs f = ⟨xs.flatMap g, false⟩ := by
  induction xs with
  | nil => rfl
  | cons x xs ih =>
    simp only [forEach_cons]
    rw [h x (List.mem_cons_self _ _), ih (fun y hy => h y (List.mem_cons_of_mem _ hy))]
    simp [Effect.andThen]

theorem forEach_filter {α : Type} {xs : List α} {f : α → Effect} (q : α → Bool)
    (h : ∀ x ∈ xs, q x = false → f x = Effect.skip) :
    forEach (xs.filter q) f = forEach xs f := by
  induction xs with
  | nil => rfl
  | cons x xs ih =>
    have ih2 := ih (fun y hy => h y (List.mem_cons_of_mem _ hy))
    by_cases hq : q x = true
    · simp [List.filter_cons, hq, ih2]
    · have hq2 : q x = false := by simpa using hq
      simp [List.filter_cons, hq2, ih2, h x (List.mem_cons_self _ _) hq2]

theorem forEach_ok_actions {α : Type} {xs : List α} {f : α → Effect}
    (h : (forEach xs f).panicked = false) :
    (forEach xs f).actions = xs.flatMap (fun x => (f x).actions) ∧
      ∀ x ∈ xs, (f x).panicked = false := by
  induction xs with
  | nil => simp [Effect.skip]
  | cons x xs ih =>
    simp only [forEach_cons] at h ⊢
    have h1 := andThen_ok_left _ _ h
    have h2 := andThen_ok_right _ _ h
    have ih2 := ih h2
    refine ⟨?_, ?_⟩
    · rw [andThen_actions_of_ok _ _ h1, ih2.1]; simp
    · intro y hy
      rcases List.mem_cons.1 hy with rfl | hy
      · exact h1
      · exact ih2.2 y hy

theorem mem_forEach_actions {α : Type} {xs : List α} {f : α → Effect} {a : Action}
    (h : a ∈ (forEach xs f).actions) : ∃ x ∈ xs, a ∈ (f x).actions := by
  induction xs with
  | nil => simp [Effect.skip] at h
  | cons x xs ih =>
    simp only [forEach_cons] at h
    rcases mem_andThen_actions h with h | h
    · exact ⟨x, List.mem_cons_self _ _, h⟩
    · obtain ⟨y, hy, hay⟩ := ih h
      exact ⟨y, List.mem_cons_of_mem _ hy, hay⟩

@[simp]
theorem forFirst_nil {α : Type} (cond : α → Bool) (body : α → Effect) :
    forFirst [] cond body = (false, Effect.skip) := rfl

theorem forFirst_cons {α : Type} (x : α) (xs : List α) (cond : α → Bool) (body : α → Effect) :
    forFirst (x :: xs) cond body = if cond x then (true, body x) else forFirst xs cond body := rfl

theorem forFirst_none {α : Type} {xs : List α} {cond : α → Bool} {body : α → Effect}
    (h : ∀ y ∈ xs, cond y = false) : forFirst xs cond body = (false, Effect.skip) := by
  induction xs with
  | nil => rfl
  | cons x xs ih =>
    rw [forFirst_cons, h x (List.mem_cons_self _ _)]
    simpa using ih (fun y hy => h y (List.mem_cons_of_mem _ hy))

theorem forFirst_unique {α : Type} {xs : List α} {cond : α → Bool} {body : α → Effect} {x : α}
    (hx : x ∈ xs) (hc : cond x = true) (hu : ∀ y ∈ xs, cond y = true → y = x) :
    forFirst xs cond body = (true, body x) := by
  induction xs with
  | nil => cases hx
  | cons z zs ih =>
    rw [forFirst_cons]
    by_cases hz : cond z = true
    · have := hu z (List.mem_cons_self _ _) hz
      subst this
      simp [hz]
    · have hz2 : cond z = false := by simpa using hz
      rcases List.mem_cons.1 hx with rfl | hx
      · simp [hc] at hz2
      · simp only [hz2]
        simpa using ih hx (fun y hy => hu y (List.mem_cons_of_mem _ hy))

theorem forFirst_filter {α : Type} {xs : List α} {cond : α → Bool} {body : α → Effect}
    (q : α → Bool) (h : ∀ y ∈ xs, cond y = true → q y = true) :
    forFirst (xs.filter q) cond body = forFirst xs cond body := by
  induction xs with
  | nil => rfl
  | cons x xs ih =>
    have ih2 := ih (fun y hy => h y (List.mem_cons_of_mem _ hy))
    by_cases hq : q x = true
    · simp [List.filter_cons, hq, forFirst_cons, ih2]
    · have hq2 : q x = false := by simpa using hq
      have hc : cond x = false := by
        by_contra hc
        have := h x (List.mem_cons_self _ _) (by simpa using hc)
        simp [hq2] at this
      simp [List.filter_cons, hq2, forFirst_cons, hc, ih2]

theorem forFirst_congr {α : Type} {xs : List α} {cond : α → Bool} {f g : α → Effect}
    (h : ∀ x ∈ xs, cond x = true → f x = g x) : forFirst xs cond f = forFirst xs cond g := by
  induction xs with
  | nil => rfl
  | cons x xs ih =>
    rw [forFirst_cons, forFirst_cons]
    by_cases hc : cond x = true
    · simp [hc, h x (List.mem_cons_self _ _) hc]
    · have hc2 : cond x = false := by simpa using hc
      simp only [hc2]
      simpa using ih (fun y hy => h y (List.mem_cons_of_mem _ hy))

theorem forFirst_found {α : Type} {xs : List α} {cond : α → Bool} {body : α → Effect} {x : α}
    (hx : x ∈ xs) (hc : cond x = true) : (forFirst xs cond body).1 = true := by
  induction xs with
  | nil => cases hx
  | cons z zs ih =>
    rw [forFirst_cons]
    by_cases hz : cond z = true
    · simp [hz]
    · have hz2 : cond z = false := by simpa using hz
      rcases List.mem_cons.1 hx with rfl | hx
      · simp [hc] at hz2
      · simp only [hz2]
        simpa using ih hx

/-- What a search loop did: nothing was found, or the body ran on a matching element. -/
theorem forFirst_cases {α : Type} (xs : List α) (cond : α → Bool) (body : α → Effect) :
    ((∀ y ∈ xs, cond y = false) ∧ forFirst xs cond body = (false, Effect.skip)) ∨
      ∃ x ∈ xs, cond x = true ∧ forFirst xs cond body = (true, body x) := by
  induction xs with
  | nil => left; simp
  | cons z zs ih =>
    rw [forFirst_cons]
    by_cases hz : cond z = true
    · right; exact ⟨z, List.mem_cons_self _ _, hz, by simp [hz]⟩
    · have hz2 : cond z = false := by simpa using hz
      rcases ih with ⟨h1, h2⟩ | ⟨x, hx, hc, h2⟩
      · left
        refine ⟨?_, by simp [hz2, h2]⟩
        intro y hy
        rcases List.mem_cons.1 hy with rfl | hy
        · exact hz2
        · exact h1 y hy
      · right; exact ⟨x, List.mem_cons_of_mem _ hx, hc, by simp [hz2, h2]⟩

theorem source_eq_of_ID {l : List SourceT} (h : (l.map SourceT.ID).Nodup) {x y : SourceT}
    (hx : x ∈ l) (hy : y ∈ l) (hxy : x.ID = y.ID) : x = y :=
  List.inj_on_of_nodup_map h hx hy hxy

theorem destination_eq_of_ID {l : List DestinationT} (h : (l.map DestinationT.ID).Nodup)
    {x y : DestinationT} (hx : x ∈ l) (hy : y ∈ l) (hxy : x.ID = y.ID) : x = y :=
  List.inj_on_of_nodup_map h hx hy hxy

/-! ## Stable pairs emit nothing -/

theorem compareDestination_stable (source prevSource : SourceT)
    (destination prevDestination : DestinationT)
    (hd : destination.Deleted = prevDestination.Deleted)
    (hc : destination.IsConnectionEnabled = prevDestination.IsConnectionEnabled)
    (hp : destination.IsProcessorEnabled = prevDestination.IsProcessorEnabled)
    (hcfg : deepEqualConfig destination.Config prevDestination.Config = true)
    (hscfg : deepEqualConfig source.Config prevSource.Config = true) :
    compareDestination source prevSource destination prevDestination = Effect.skip := by
  simp [compareDestination, hd, hc, hp, hcfg, hscfg]

theorem forFirst_skip_snd {α : Type} (xs : List α) (cond : α → Bool) :
    (forFirst xs cond (fun _ => Effect.skip)).2 = Effect.skip := by
  rcases forFirst_cases xs cond (fun _ => Effect.skip) with ⟨_, h⟩ | ⟨x, _, _, h⟩ <;> rw [h]

theorem removeVanishedDestination_found (source : SourceT) (prevDestination : DestinationT)
    (h : ∃ e ∈ source.Destinations, e.ID = prevDestination.ID) :
    removeVanishedDestination source prevDestination = Effect.skip := by
  obtain ⟨e, he, hid⟩ := h
  have hf : (forFirst source.Destinations (fun destination => prevDestination.ID == destination.ID)
      (fun _ => Effect.skip)).1 = true :=
    forFirst_found he (by simp [hid])
  simp [removeVanishedDestination, hf, forFirst_skip_snd]

theorem removeVanishedDestination_missing (source : SourceT) (prevDestination : DestinationT)
    (h : ∀ e ∈ source.Destinations, e.ID ≠ prevDestination.ID) :
    removeVanishedDestination source prevDestination =
      deleteConfigFromRegistry (getPipelineId source.ID prevDestination.ID) := by
  have hf : forFirst source.Destinations (fun destination => prevDestination.ID == destination.ID)
      (fun _ => Effect.skip) = (false, Effect.skip) :=
    forFirst_none (fun e he => by simpa using Ne.symm (h e he))
  simp [removeVanishedDestination, hf]

/-- A previous source whose same-ID sources in the new snapshot still hold all of its
destinations loses nothing in the orphan pass. -/
theorem removeVanished_kept (sources : List SourceT) (prevSource : SourceT)
    (hex : ∃ c ∈ sources, c.ID = prevSource.ID)
    (hall : ∀ c ∈ sources, c.ID = prevSource.ID →
      ∀ e ∈ prevSource.Destinations, ∃ e2 ∈ c.Destinations, e2.ID = e.ID) :
    removeVanished sources prevSource = Effect.skip := by
  unfold removeVanished
  split
  · rcases forFirst_cases sources (fun source => prevSource.ID == source.ID)
      (fun source => forEach prevSource.Destinations (removeVanishedDestination source)) with
      ⟨hn, _⟩ | ⟨c, hc, hcond, hf⟩
    · obtain ⟨c, hc, hid⟩ := hex
      have := hn c hc
      simp [hid] at this
    · have hid : c.ID = prevSource.ID := by simpa using Eq.symm (by simpa using hcond)
      simp only [hf]
      have : forEach prevSource.Destinations (removeVanishedDestination c) = Effect.skip :=
        forEach_skip (fun e he => removeVanishedDestination_found c e (hall c hc hid e he))
      simp [this]
  · rfl

theorem diffDestination_found (source prevSource : SourceT) (destination prevDestination : DestinationT)
    (hdel : source.Deleted = prevSource.Deleted)
    (hu : (prevSource.Destinations.map DestinationT.ID).Nodup)
    (hmem : prevDestination ∈ prevSource.Destinations)
    (hid : prevDestination.ID = destination.ID) :
    diffDestination source prevSource destination =
      compareDestination source prevSource destination prevDestination := by
  have hf : forFirst prevSource.Destinations
      (fun prevDestination => prevDestination.ID == destination.ID)
      (compareDestination source prevSource destination) =
      (true, compareDestination source prevSource destination prevDestination) :=
    forFirst_unique hmem (by simp [hid])
      (fun y hy hc => destination_eq_of_ID hu hy hmem (by simpa [hid] using hc))
  simp [diffDestination, hdel, hf]

theorem diffDestination_new (source prevSource : SourceT) (destination : DestinationT)
    (hdel : source.Deleted = prevSource.Deleted)
    (hnew : ∀ e ∈ prevSource.Destinations, e.ID ≠ destination.ID) :
    diffDestination source prevSource destination = registerNew source destination := by
  have hf : forFirst prevSource.Destinations
      (fun prevDestination => prevDestination.ID == destination.ID)
      (compareDestination source prevSource destination) = (false, Effect.skip) :=
    forFirst_none (fun e he => by simpa using hnew e he)
  simp [diffDestination, hdel, hf]

theorem diffDestination_flagged (source prevSource : SourceT) (destination : DestinationT)
    (hdel : source.Deleted ≠ prevSource.Deleted) :
    diffDestination source prevSource destination =
      deleteConfigFromRegistry (getPipelineId source.ID destination.ID) := by
  simp [diffDestination, hdel]

theorem diffSource_ineligible (br : BlendoRegistry) (source : SourceT)
    (h : eligible source = false) : diffSource br source = Effect.skip := by
  have : source.SourceDefinition.Category ≠ "cloud" := by simpa [eligible] using h
  simp [diffSource, this]

theorem diffSource_found (prev : List SourceT) (source prevSource : SourceT)
    (hel : eligible source = true) (hu : (prev.map SourceT.ID).Nodup)
    (hmem : prevSource ∈ prev) (hid : prevSource.ID = source.ID) :
    diffSource ⟨⟨prev⟩, true⟩ source =
      forEach source.Destinations (diffDestination source prevSource) := by
  have hcat : source.SourceDefinition.Category = "cloud" := by simpa [eligible] using hel
  have hf : forFirst prev (fun prevSource => prevSource.ID == source.ID)
      (fun prevSource => forEach source.Destinations (diffDestination source prevSource)) =
      (true, forEach source.Destinations (diffDestination source prevSource)) :=
    forFirst_unique hmem (by simp [hid])
      (fun y hy hc => source_eq_of_ID hu hy hmem (by simpa [hid] using hc))
  simp [diffSource, hcat, hf]

theorem diffSource_new (br : BlendoRegistry) (source : SourceT)
    (hel : eligible source = true)
    (hnew : br.isConfigSet = false ∨ ∀ p ∈ br.currentSourceJSON.Sources, p.ID ≠ source.ID) :
    diffSource br source = forEach source.Destinations (registerNew source) := by
  have hcat : source.SourceDefinition.Category = "cloud" := by simpa [eligible] using hel
  rcases hnew with h | h
  · simp [diffSource, hcat, h]
  · have hf : forFirst br.currentSourceJSON.Sources (fun prevSource => prevSource.ID == source.ID)
        (fun prevSource => forEach source.Destinations (diffDestination source prevSource)) =
        (false, Effect.skip) :=
      forFirst_none (fun e he => by simpa using h e he)
    cases hset : br.isConfigSet <;> simp [diffSource, hcat, hf, hset]

/-- A source that is the same in both snapshots emits nothing in the transition pass. -/
theorem diffSource_same (prev : List SourceT) (source : SourceT)
    (hu : (prev.map SourceT.ID).Nodup)
    (hud : (source.Destinations.map DestinationT.ID).Nodup) (hmem : source ∈ prev) :
    diffSource ⟨⟨prev⟩, true⟩ source = Effect.skip := by
  cases hel : eligible source with
  | false => exact diffSource_ineligible _ _ hel
  | true =>
    rw [diffSource_found prev source source hel hu hmem rfl]
    apply forEach_skip
    intro e he
    rw [diffDestination_found source source e e rfl hud he rfl]
    exact compareDestination_stable _ _ _ _ rfl rfl rfl (deepEqualConfig_refl _)
      (deepEqualConfig_refl _)

theorem removeVanished_same (sources : List SourceT) (prevSource : SourceT)
    (hu : (sources.map SourceT.ID).Nodup) (hmem : prevSource ∈ sources) :
    removeVanished sources prevSource = Effect.skip := by
  apply removeVanished_kept sources prevSource ⟨prevSource, hmem, rfl⟩
  intro c hc hid e he
  have := source_eq_of_ID hu hc hmem hid
  subst this
  exact ⟨e, he, rfl⟩

/-- C1. Idempotence of the diff: once a snapshot with unique source IDs and unique
destination IDs within each source has been stored (`isConfigSet = true`), reconciling
the same snapshot again issues no registry call at all. -/
theorem handleSources_idempotent (S : List SourceT) (hu : uniqueIDs S) :
    handleSources ⟨⟨S⟩, true⟩ S = ⟨[], false⟩ := by
  have h1 : deleteRemovedSourcesDestinations ⟨⟨S⟩, true⟩ S = Effect.skip :=
    forEach_skip (fun p hp => removeVanished_same S p hu.1 hp)
  have h2 : calculateDifferencesAndUpdateRegistry ⟨⟨S⟩, true⟩ S = Effect.skip :=
    forEach_skip (fun s hs => diffSource_same S s hu.1 (hu.2 s hs) hs)
  simp [handleSources, h1, h2]
  rfl

/-- Witness for C1: a snapshot of two eligible sources and an ineligible one. -/
theorem handleSources_idempotent_witness :
    handleSources ⟨⟨[srcS1 [destD1, destD2], srcS2, srcS3Event]⟩, true⟩
      [srcS1 [destD1, destD2], srcS2, srcS3Event] = ⟨[], false⟩ :=
  handleSources_idempotent _ (by decide)

/-! ## A single changed destination -/

/-- When the new snapshot differs from the stored one in one destination of one eligible
source only, the whole run does what the comparison of that destination does. -/
theorem handleSources_one_destination (l1 l2 : List SourceT) (p s : SourceT)
    (d1 d2 : List DestinationT) (pd d : DestinationT)
    (hp : p.Destinations = d1 ++ pd :: d2) (hs : s.Destinations = d1 ++ d :: d2)
    (hsid : s.ID = p.ID) (hsdel : s.Deleted = p.Deleted) (hscfg : s.Config = p.Config)
    (hid : d.ID = pd.ID) (hel : eligible s = true)
    (hu : uniqueIDs (l1 ++ p :: l2)) :
    handleSources ⟨⟨l1 ++ p :: l2⟩, true⟩ (l1 ++ s :: l2) = compareDestination s p d pd := by
  obtain ⟨hus, hud⟩ := hu
  have hpmem : p ∈ l1 ++ p :: l2 := by simp
  -- orphan pass
  have h1 : deleteRemovedSourcesDestinations ⟨⟨l1 ++ p :: l2⟩, true⟩ (l1 ++ s :: l2) =
      Effect.skip := by
    apply forEach_skip
    intro q hq
    have hq2 : q ∈ l1 ++ p :: l2 := hq
    apply removeVanished_kept
    · rcases List.mem_append.1 hq2 with h | h
      · exact ⟨q, by simp [h], rfl⟩
      · rcases List.mem_cons.1 h with rfl | h
        · exact ⟨s, by simp, hsid⟩
        · exact ⟨q, by simp [h], rfl⟩
    · intro c hc hcid e he
      have hc2 : c ∈ l1 ∨ c = s ∨ c ∈ l2 := by simpa using hc
      rcases hc2 with h | h | h
      · have : c = q := source_eq_of_ID hus (by simp [h]) hq2 hcid
        subst this
        exact ⟨e, he, rfl⟩
      · have hpq : p = q := source_eq_of_ID hus hpmem hq2 (by rw [← hcid, h, hsid])
        subst hpq
        subst h
        rw [hp] at he
        rw [hs]
        have he2 : e ∈ d1 ∨ e = pd ∨ e ∈ d2 := by simpa using he
        rcases he2 with h | h | h
        · exact ⟨e, by simp [h], rfl⟩
        · exact ⟨d, by simp, by rw [h, hid]⟩
        · exact ⟨e, by simp [h], rfl⟩
      · have : c = q := source_eq_of_ID hus (by simp [h]) hq2 hcid
        subst this
        exact ⟨e, he, rfl⟩
  -- transition pass
  have hside : ∀ c, c ∈ l1 ∨ c ∈ l2 → diffSource ⟨⟨l1 ++ p :: l2⟩, true⟩ c = Effect.skip := by
    intro c hc
    have hcm : c ∈ l1 ++ p :: l2 := by
      rcases hc with h | h <;> simp [h]
    exact diffSource_same _ c hus (hud c hcm) hcm
  have hsib : ∀ e, e ∈ d1 ∨ e ∈ d2 → diffDestination s p e = Effect.skip := by
    intro e he
    have hem : e ∈ p.Destinations := by
      rw [hp]
      rcases he with h | h <;> simp [h]
    rw [diffDestination_found s p e e hsdel (hud p hpmem) hem rfl]
    exact compareDestination_stable _ _ _ _ rfl rfl rfl (deepEqualConfig_refl _)
      (by rw [hscfg]; exact deepEqualConfig_refl _)
  have h2 : calculateDifferencesAndUpdateRegistry ⟨⟨l1 ++ p :: l2⟩, true⟩ (l1 ++ s :: l2) =
      compareDestination s p d pd := by
    unfold calculateDifferencesAndUpdateRegistry
    rw [forEach_single (fun c hc => hside c (Or.inl hc)) (fun c hc => hside c (Or.inr hc))]
    rw [diffSource_found (l1 ++ p :: l2) s p hel hus hpmem hsid.symm, hs]
    rw [forEach_single (fun e he => hsib e (Or.inl he)) (fun e he => hsib e (Or.inr he))]
    exact diffDestination_found s p d pd hsdel (hud p hpmem) (by rw [hp]; simp) hid.symm
  simp [handleSources, h1, h2]

theorem getConfig_paused (source : SourceT) (destination : DestinationT)
    (cfg : BlendoRegistryPipelineConfigT) (h : getConfig source destination = some cfg) :
    cfg.Paused = !destination.IsProcessorEnabled := by
  cases hr : sourceResources source <;>
    cases ho : mapDestinationconfig destination.Config <;>
    simp [getConfig, hr, ho] at h
  rw [← h]

/-- The mapper's panics depend on the two payloads only. -/
theorem getConfig_isSome_congr (s1 s2 : SourceT) (e1 e2 : DestinationT)
    (hs : s1.Config = s2.Config) (he : e1.Config = e2.Config) :
    (getConfig s1 e1).isSome = (getConfig s2 e2).isSome := by
  have hr : sourceResources s1 = sourceResources s2 := by simp [sourceResources, hs]
  cases hr2 : sourceResources s2 <;>
    cases ho : mapDestinationconfig e2.Config <;>
    simp [getConfig, hr, hr2, he, ho]

/-! ## First snapshot -/

/-- The action the new-pair rule takes when the mapper returns `cfg`. -/
theorem registerNew_of_config (source : SourceT) (destination : DestinationT)
    (cfg : BlendoRegistryPipelineConfigT)
    (h : (source.Deleted || destination.Deleted) = false → getConfig source destination = some cfg) :
    registerNew source destination =
      ⟨[if source.Deleted || destination.Deleted then
          Action.Remove (getPipelineId source.ID destination.ID)
        else Action.Apply (getPipelineId source.ID destination.ID) cfg], false⟩ := by
  unfold registerNew
  cases hdel : (source.Deleted || destination.Deleted) with
  | true => simp [deleteConfigFromRegistry]
  | false => simp [h hdel, Effect.call, putConfigToRegistry]

/-- C3 (amended). First-ever snapshot: with `isConfigSet = false`, whatever is stored, and
provided the mapper returns a configuration `cfg s d` on every pair of an eligible source
in which neither side is flagged deleted, the run issues exactly one call per destination
of each eligible source, in snapshot order: `Remove` when the source or the destination is
flagged deleted, otherwise `Apply` with the mapped configuration. -/
theorem handleSources_first_snapshot (prev : SourcesT) (cur : List SourceT)
    (cfg : SourceT → DestinationT → BlendoRegistryPipelineConfigT)
    (hcfg : ∀ s ∈ cur, eligible s = true → ∀ d ∈ s.Destinations,
      (s.Deleted || d.Deleted) = false → getConfig s d = some (cfg s d)) :
    handleSources ⟨prev, false⟩ cur =
      ⟨(cur.filter eligible).flatMap (fun s => s.Destinations.map (fun d =>
          if s.Deleted || d.Deleted then Action.Remove (getPipelineId s.ID d.ID)
          else Action.Apply (getPipelineId s.ID d.ID) (cfg s d))), false⟩ := by
  have h1 : handleSources ⟨prev, false⟩ cur =
      forEach (cur.filter eligible) (diffSource ⟨prev, false⟩) := by
    simp only [handleSources, calculateDifferencesAndUpdateRegistry]
    rw [forEach_filter eligible (fun s _ hs => diffSource_ineligible _ s hs)]
    simp
  rw [h1]
  apply forEach_pure
  intro s hs
  obtain ⟨hmem, hel⟩ := List.mem_filter.1 hs
  rw [diffSource_new _ s hel (Or.inl rfl)]
  have : forEach s.Destinations (registerNew s) =
      ⟨s.Destinations.flatMap (fun d =>
        [if s.Deleted || d.Deleted then Action.Remove (getPipelineId s.ID d.ID)
          else Action.Apply (getPipelineId s.ID d.ID) (cfg s d)]), false⟩ :=
    forEach_pure (fun d hd => registerNew_of_config s d (cfg s d) (hcfg s hmem hel d hd))
  rw [this, flatMap_unit]

/-- Witness for C3: a first snapshot with one live and one deleted destination, while
another snapshot is stored. -/
theorem handleSources_first_snapshot_witness :
    handleSources ⟨⟨[srcS2]⟩, false⟩ [srcS1 [destD1, destD2Deleted]] =
      ⟨[Action.Apply "S1_D1" ((getConfig (srcS1 [destD1, destD2Deleted]) destD1).getD zeroConfig),
        Action.Remove "S1_D2"], false⟩ :=
  handleSources_first_snapshot ⟨[srcS2]⟩ [srcS1 [destD1, destD2Deleted]]
    (fun s d => (getConfig s d).getD zeroConfig)
    (by
      intro s hs _ d hd hdel
      simp only [List.mem_singleton] at hs
      subst hs
      have hd2 : d = destD1 ∨ d = destD2Deleted := by simpa [srcS1] using hd
      rcases hd2 with rfl | rfl
      · rfl
      · simp [srcS1, destD2Deleted] at hdel)

/-- C3 (as stated) fails: on a first snapshot whose only eligible destination carries a
numeric port the mapper panics, so no call is issued for that destination although the
source and the destination are not flagged deleted. -/
theorem handleSources_first_snapshot_counterexample :
    eligible (srcS1 [destD1Numeric]) = true ∧
      getConfig (srcS1 [destD1Numeric]) destD1Numeric = none ∧
      handleSources ⟨⟨[]⟩, false⟩ [srcS1 [destD1Numeric]] = ⟨[], true⟩ :=
  ⟨rfl, rfl, rfl⟩

/-! ## Re-enabling a connection -/

/-- C4 (failing input). Stored: eligible `S1` with `D1` whose connection is disabled; new
snapshot: the same with the connection enabled and nothing else changed. The run issues
no call at all, where the claim expects one `Apply` for `S1_D1`. -/
theorem handleSources_reenable_emits_nothing :
    handleSources ⟨⟨[srcS1 [{ destD1 with IsConnectionEnabled := false }]]⟩, true⟩
      [srcS1 [{ destD1 with IsConnectionEnabled := true }]] = ⟨[], false⟩ :=
  rfl

/-- The same on every input of that shape: when only `IsConnectionEnabled` of one
destination of an eligible source goes from false to true, the run issues no call. The
second branch of the comparison tests the previous flag, so it never sees a connection
flip: a flip to disabled is taken by the first branch. -/
theorem handleSources_reenable_general (l1 l2 : List SourceT) (p s : SourceT)
    (d1 d2 : List DestinationT) (pd d : DestinationT)
    (hp : p.Destinations = d1 ++ pd :: d2)
    (hd : d = { pd with IsConnectionEnabled := true })
    (hs : s = { p with Destinations := d1 ++ d :: d2 })
    (hprev : pd.IsConnectionEnabled = false)
    (hel : eligible p = true) (hu : uniqueIDs (l1 ++ p :: l2)) :
    handleSources ⟨⟨l1 ++ p :: l2⟩, true⟩ (l1 ++ s :: l2) = ⟨[], false⟩ := by
  have hsid : s.ID = p.ID := by rw [hs]
  have hdid : d.ID = pd.ID := by rw [hd]
  rw [handleSources_one_destination l1 l2 p s d1 d2 pd d hp (by rw [hs]) hsid (by rw [hs])
    (by rw [hs]) hdid (by rw [hs]; exact hel) hu]
  have h1 : d.Deleted = pd.Deleted := by rw [hd]
  have h2 : d.IsConnectionEnabled = true := by rw [hd]
  have h3 : d.IsProcessorEnabled = pd.IsProcessorEnabled := by rw [hd]
  have h4 : d.Config = pd.Config := by rw [hd]
  have h5 : s.Config = p.Config := by rw [hs]
  simp [compareDestination, h1, h2, h3, h4, h5, hprev, deepEqualConfig_refl]
  rfl

/-! ## Configuration change and processor flip -/

/-- C6 (amended). Config-change detection: with `isConfigSet = true` and unique IDs, if the
new snapshot equals the stored one except that the payload of one destination `pd` of an
eligible source differs (`newConfig` is not deeply equal to the old payload), and the
mapper returns `cfg` on the changed pair, then the run issues exactly one call,
`Apply` for that pair with `cfg`; nothing is issued for siblings or other sources. -/
theorem handleSources_config_change (l1 l2 : List SourceT) (p s : SourceT)
    (d1 d2 : List DestinationT) (pd d : DestinationT) (newConfig : Option ConfigMap)
    (cfg : BlendoRegistryPipelineConfigT)
    (hp : p.Destinations = d1 ++ pd :: d2)
    (hd : d = { pd with Config := newConfig })
    (hs : s = { p with Destinations := d1 ++ d :: d2 })
    (hel : eligible p = true) (hu : uniqueIDs (l1 ++ p :: l2))
    (hchange : deepEqualConfig newConfig pd.Config = false)
    (hcfg : getConfig s d = some cfg) :
    handleSources ⟨⟨l1 ++ p :: l2⟩, true⟩ (l1 ++ s :: l2) =
      ⟨[Action.Apply (getPipelineId p.ID pd.ID) cfg], false⟩ := by
  have hsid : s.ID = p.ID := by rw [hs]
  have hdid : d.ID = pd.ID := by rw [hd]
  rw [handleSources_one_destination l1 l2 p s d1 d2 pd d hp (by rw [hs]) hsid (by rw [hs])
    (by rw [hs]) hdid (by rw [hs]; exact hel) hu]
  have h1 : d.Deleted = pd.Deleted := by rw [hd]
  have h2 : d.IsConnectionEnabled = pd.IsConnectionEnabled := by rw [hd]
  have h3 : d.Config = newConfig := by rw [hd]
  simp [compareDestination, h1, h2, h3, hchange, hcfg, Effect.call, putConfigToRegistry, hsid, hdid]

/-- Witness for C6: the payload of `D1` moves to another host; `D2` and `S2` are
unchanged. -/
theorem handleSources_config_change_witness :
    handleSources ⟨⟨[srcS2] ++ srcS1 [destD1, destD2] :: []⟩, true⟩
      ([srcS2] ++ srcS1 [destD1Moved, destD2] :: []) =
      ⟨[Action.Apply (getPipelineId "S1" "D1")
        ((getConfig (srcS1 [destD1Moved, destD2]) destD1Moved).getD zeroConfig)], false⟩ :=
  handleSources_config_change [srcS2] [] (srcS1 [destD1, destD2])
    (srcS1 [destD1Moved, destD2]) [] [destD2] destD1 destD1Moved pgOptionsMoved
    ((getConfig (srcS1 [destD1Moved, destD2]) destD1Moved).getD zeroConfig)
    rfl rfl rfl rfl (by decide) (by decide) rfl

/-- C6 (as stated) fails: the payload of `D1` changes to one with a numeric port, all
flags unchanged; the mapper panics and the run issues no call instead of one `Apply`. -/
theorem handleSources_config_change_counterexample :
    uniqueIDs [srcS1 [destD1]] ∧
      deepEqualConfig destD1Numeric.Config destD1.Config = false ∧
      handleSources ⟨⟨[srcS1 [destD1]]⟩, true⟩ [srcS1 [destD1Numeric]] = ⟨[], true⟩ :=
  ⟨by decide, by decide, rfl⟩

/-- C7 (amended). Processor-enabled flip: with `isConfigSet = true` and unique IDs, if the
new snapshot equals the stored one except that `IsProcessorEnabled` of one destination of
an eligible source is flipped, and the mapper returns `cfg` on that pair, then the run
issues exactly one call, `Apply` for that pair with `cfg`, and `cfg.Paused` is the negation
of the destination's new `IsProcessorEnabled`. -/
theorem handleSources_processor_flip (l1 l2 : List SourceT) (p s : SourceT)
    (d1 d2 : List DestinationT) (pd d : DestinationT) (cfg : BlendoRegistryPipelineConfigT)
    (hp : p.Destinations = d1 ++ pd :: d2)
    (hd : d = { pd with IsProcessorEnabled := !pd.IsProcessorEnabled })
    (hs : s = { p with Destinations := d1 ++ d :: d2 })
    (hel : eligible p = true) (hu : uniqueIDs (l1 ++ p :: l2))
    (hcfg : getConfig s d = some cfg) :
    handleSources ⟨⟨l1 ++ p :: l2⟩, true⟩ (l1 ++ s :: l2) =
        ⟨[Action.Apply (getPipelineId p.ID pd.ID) cfg], false⟩ ∧
      cfg.Paused = !d.IsProcessorEnabled := by
  refine ⟨?_, getConfig_paused s d cfg hcfg⟩
  have hsid : s.ID = p.ID := by rw [hs]
  have hdid : d.ID = pd.ID := by rw [hd]
  rw [handleSources_one_destination l1 l2 p s d1 d2 pd d hp (by rw [hs]) hsid (by rw [hs])
    (by rw [hs]) hdid (by rw [hs]; exact hel) hu]
  have h1 : d.Deleted = pd.Deleted := by rw [hd]
  have h2 : d.IsConnectionEnabled = pd.IsConnectionEnabled := by rw [hd]
  have h3 : d.IsProcessorEnabled = !pd.IsProcessorEnabled := by rw [hd]
  simp [compareDestination, h1, h2, h3, hcfg, Effect.call, putConfigToRegistry, hsid, hdid]

/-- Witness for C7: the example of the specification, `S1`/`D1` going from
`IsProcessorEnabled = true` to `false`, gives one `Apply` for `S1_D1` with `Paused = true`. -/
theorem handleSources_processor_flip_witness :
    handleSources ⟨⟨[] ++ srcS1 [destD1] :: []⟩, true⟩ ([] ++ srcS1 [destD1Paused] :: []) =
        ⟨[Action.Apply (getPipelineId "S1" "D1")
          ((getConfig (srcS1 [destD1Paused]) destD1Paused).getD zeroConfig)], false⟩ ∧
      ((getConfig (srcS1 [destD1Paused]) destD1Paused).getD zeroConfig).Paused =
        !destD1Paused.IsProcessorEnabled :=
  handleSources_processor_flip [] [] (srcS1 [destD1]) (srcS1 [destD1Paused]) [] [] destD1
    destD1Paused ((getConfig (srcS1 [destD1Paused]) destD1Paused).getD zeroConfig)
    rfl rfl rfl rfl (by decide) rfl

/-- C7 (as stated) fails: `D1` carries a numeric port and only its `IsProcessorEnabled`
goes from true to false; the mapper panics and the run issues no call instead of one
`Apply` with `paused = true`. -/
theorem handleSources_processor_flip_counterexample :
    uniqueIDs [srcS1 [destD1Numeric]] ∧
      handleSources ⟨⟨[srcS1 [destD1Numeric]]⟩, true⟩
        [srcS1 [{ destD1Numeric with IsProcessorEnabled := false }]] = ⟨[], true⟩ :=
  ⟨by decide, rfl⟩

/-! ## Ineligible sources -/

theorem removeVanished_ineligible (sources : List SourceT) (prevSource : SourceT)
    (h : eligible prevSource = false) : removeVanished sources prevSource = Effect.skip := by
  have : prevSource.SourceDefinition.Category ≠ "cloud" := by simpa [eligible] using h
  simp [removeVanished, this]

theorem removeVanished_filter (q : SourceT → Bool) (sources : List SourceT) (prevSource : SourceT)
    (h : eligible prevSource = true → ∀ c ∈ sources, c.ID = prevSource.ID → q c = true) :
    removeVanished (sources.filter q) prevSource = removeVanished sources prevSource := by
  cases hel : eligible prevSource with
  | false => rw [removeVanished_ineligible _ _ hel, removeVanished_ineligible _ _ hel]
  | true =>
    unfold removeVanished
    rw [forFirst_filter q (fun c hc hcond => h hel c hc (by simpa using Eq.symm (by simpa using hcond)))]

theorem diffSource_filter (q : SourceT → Bool) (prev : List SourceT) (b : Bool) (source : SourceT)
    (h : eligible source = true → ∀ p ∈ prev, p.ID = source.ID → q p = true) :
    diffSource ⟨⟨prev.filter q⟩, b⟩ source = diffSource ⟨⟨prev⟩, b⟩ source := by
  cases hel : eligible source with
  | false => rw [diffSource_ineligible _ _ hel, diffSource_ineligible _ _ hel]
  | true =>
    unfold diffSource
    simp only
    rw [forFirst_filter q (fun p hp hcond => h hel p hp (by simpa using hcond))]

/-- Dropping from both snapshots sources chosen by `q` changes nothing, provided `q`
keeps every eligible source and every source sharing its ID with an eligible source of
the other snapshot. -/
theorem handleSources_filter (q : SourceT → Bool) (prev cur : List SourceT) (b : Bool)
    (hprev : ∀ p ∈ prev, eligible p = true → q p = true)
    (hcur : ∀ c ∈ cur, eligible c = true → q c = true)
    (hpc : ∀ p ∈ prev, ∀ c ∈ cur, p.ID = c.ID → (eligible p = true ∨ eligible c = true) →
      q p = true ∧ q c = true) :
    handleSources ⟨⟨prev.filter q⟩, b⟩ (cur.filter q) = handleSources ⟨⟨prev⟩, b⟩ cur := by
  have h1 : deleteRemovedSourcesDestinations ⟨⟨prev.filter q⟩, b⟩ (cur.filter q) =
      deleteRemovedSourcesDestinations ⟨⟨prev⟩, b⟩ cur := by
    unfold deleteRemovedSourcesDestinations
    simp only
    rw [forEach_filter q (fun p hp hq => removeVanished_ineligible _ p (by
      cases hel : eligible p with
      | false => rfl
      | true => rw [hprev p hp hel] at hq; cases hq))]
    exact forEach_congr (fun p hp => removeVanished_filter q cur p
      (fun hel c hc hid => (hpc p hp c hc hid.symm (Or.inl hel)).2))
  have h2 : calculateDifferencesAndUpdateRegistry ⟨⟨prev.filter q⟩, b⟩ (cur.filter q) =
      calculateDifferencesAndUpdateRegistry ⟨⟨prev⟩, b⟩ cur := by
    unfold calculateDifferencesAndUpdateRegistry
    rw [forEach_filter q (fun c hc hq => diffSource_ineligible _ c (by
      cases hel : eligible c with
      | false => rfl
      | true => rw [hcur c hc hel] at hq; cases hq))]
    exact forEach_congr (fun c hc => diffSource_filter q prev b c
      (fun hel p hp hid => (hpc p hp c hc hid (Or.inr hel)).1))
  simp only [handleSources, h1, h2]

theorem neverEligible_of_eligible (prev cur : List SourceT) (s : SourceT)
    (hs : s ∈ prev ++ cur) (hel : eligible s = true) : neverEligible prev cur s.ID = false := by
  cases h : neverEligible prev cur s.ID with
  | false => rfl
  | true =>
    have := (List.all_eq_true.1 h) s hs
    simp [hel] at this

/-- C10. No spurious traffic from ineligible sources: for every store state and every new
snapshot, removing from both snapshots every source whose ID is ineligible wherever it
occurs leaves the run unchanged, whatever the fields of those sources are; and when no
source of either snapshot is eligible, the run issues no registry call. -/
theorem handleSources_ignores_ineligible (br : BlendoRegistry) (cur : List SourceT) :
    handleSources br cur =
        handleSources
          ⟨⟨dropNeverEligible br.currentSourceJSON.Sources cur br.currentSourceJSON.Sources⟩,
            br.isConfigSet⟩
          (dropNeverEligible br.currentSourceJSON.Sources cur cur) ∧
      ((∀ s ∈ br.currentSourceJSON.Sources ++ cur, eligible s = false) →
        handleSources br cur = ⟨[], false⟩) := by
  obtain ⟨⟨prev⟩, b⟩ := br
  have key : handleSources ⟨⟨prev⟩, b⟩ cur =
      handleSources ⟨⟨dropNeverEligible prev cur prev⟩, b⟩ (dropNeverEligible prev cur cur) := by
    unfold dropNeverEligible
    rw [handleSources_filter (fun s => !neverEligible prev cur s.ID) prev cur b]
    · intro p hp hel
      simp [neverEligible_of_eligible prev cur p (List.mem_append_left _ hp) hel]
    · intro c hc hel
      simp [neverEligible_of_eligible prev cur c (List.mem_append_right _ hc) hel]
    · intro p hp c hc hid hel
      rcases hel with hel | hel
      · have := neverEligible_of_eligible prev cur p (List.mem_append_left _ hp) hel
        simp [← hid, this]
      · have := neverEligible_of_eligible prev cur c (List.mem_append_right _ hc) hel
        simp [hid, this]
  refine ⟨key, ?_⟩
  intro hall
  simp only at hall
  have h1 : deleteRemovedSourcesDestinations ⟨⟨prev⟩, b⟩ cur = Effect.skip :=
    forEach_skip (fun p hp => removeVanished_ineligible _ p
      (hall p (List.mem_append_left _ hp)))
  have h2 : calculateDifferencesAndUpdateRegistry ⟨⟨prev⟩, b⟩ cur = Effect.skip :=
    forEach_skip (fun c hc => diffSource_ineligible _ c (hall c (List.mem_append_right _ hc)))
  cases b <;> simp [handleSources, h1, h2] <;> rfl

/-- Witness for C10: an ineligible source whose destinations and payloads change. -/
theorem handleSources_ignores_ineligible_witness :
    handleSources ⟨⟨[srcS1Event [destD1]]⟩, true⟩ [srcS1Event [destD1Numeric, destD2]] =
      ⟨[], false⟩ :=
  (handleSources_ignores_ineligible ⟨⟨[srcS1Event [destD1]]⟩, true⟩
    [srcS1Event [destD1Numeric, destD2]]).2 (by decide)

/-- C8 (amended). Eligibility filter: with `isConfigSet = true`, whenever no source ID is
eligible in one snapshot and ineligible in the other, the run equals the run on the two
snapshots with every ineligible source removed first. -/
theorem handleSources_eligibility_filter (prev cur : List SourceT)
    (hstable : stableEligibility prev cur) :
    handleSources ⟨⟨prev⟩, true⟩ cur =
      handleSources ⟨⟨prev.filter eligible⟩, true⟩ (cur.filter eligible) := by
  rw [handleSources_filter eligible prev cur true (fun _ _ h => h) (fun _ _ h => h)]
  intro p hp c hc hid hel
  have := hstable p hp c hc hid
  rcases hel with hel | hel
  · exact ⟨hel, by rw [← this]; exact hel⟩
  · exact ⟨by rw [this]; exact hel, hel⟩

/-- Witness for C8: an ineligible `S1` whose destination changes next to an unchanged
eligible `S2`. -/
theorem handleSources_eligibility_filter_witness :
    stableEligibility [srcS1Event [destD1], srcS2] [srcS1Event [destD2], srcS2] ∧
      handleSources ⟨⟨[srcS1Event [destD1], srcS2]⟩, true⟩ [srcS1Event [destD2], srcS2] =
        handleSources ⟨⟨[srcS1Event [destD1], srcS2].filter eligible⟩, true⟩
          ([srcS1Event [destD2], srcS2].filter eligible) :=
  ⟨by decide, handleSources_eligibility_filter _ _ (by decide)⟩

/-- C8 (as stated) fails: `S1` is eligible in the stored snapshot and carries another
category in the new one, with the same destination. The run finds `S1` and `D1` still
present and issues nothing; after removing the ineligible source from the new snapshot
the run removes `S1_D1`. -/
theorem handleSources_eligibility_filter_counterexample :
    handleSources ⟨⟨[srcS1 [destD1]]⟩, true⟩ [srcS1Event [destD1]] = ⟨[], false⟩ ∧
      handleSources ⟨⟨[srcS1 [destD1]].filter eligible⟩, true⟩
        ([srcS1Event [destD1]].filter eligible) = ⟨[Action.Remove "S1_D1"], false⟩ :=
  ⟨rfl, rfl⟩

/-! ## Which calls a pass can issue -/

theorem forEach_ok_of {α : Type} {xs : List α} {f : α → Effect}
    (h : ∀ x ∈ xs, (f x).panicked = false) : (forEach xs f).panicked = false := by
  induction xs with
  | nil => rfl
  | cons x xs ih =>
    simp only [forEach_cons]
    rw [andThen_panicked_of_ok _ _ (h x (List.mem_cons_self _ _))]
    exact ih (fun y hy => h y (List.mem_cons_of_mem _ hy))

theorem filter_flatMap_nil {α : Type} (l : List α) (g : α → List Action) (q : Action → Bool)
    (h : ∀ y ∈ l, ∀ a ∈ g y, q a = false) : (l.flatMap g).filter q = [] := by
  rw [List.filter_eq_nil_iff]
  intro a ha
  obtain ⟨y, hy, hay⟩ := List.mem_flatMap.1 ha
  simp [h y hy a hay]

theorem filter_flatMap_unique {α : Type} (l : List α) (x : α) (g : α → List Action)
    (q : Action → Bool) (hnd : l.Nodup) (hx : x ∈ l)
    (h : ∀ y ∈ l, y ≠ x → ∀ a ∈ g y, q a = false) :
    (l.flatMap g).filter q = (g x).filter q := by
  induction l with
  | nil => cases hx
  | cons z zs ih =>
    obtain ⟨hz, hzs⟩ := List.nodup_cons.1 hnd
    rw [List.flatMap_cons, List.filter_append]
    by_cases hzx : z = x
    · subst hzx
      rw [filter_flatMap_nil zs g q (fun y hy => h y (List.mem_cons_of_mem _ hy)
        (fun hyz => hz (hyz ▸ hy)))]
      simp
    · have hxz : x ∈ zs := by
        rcases List.mem_cons.1 hx with h1 | h1
        · exact absurd h1.symm hzx
        · exact h1
      rw [ih hzs hxz (fun y hy => h y (List.mem_cons_of_mem _ hy))]
      have : (g z).filter q = [] := by
        rw [List.filter_eq_nil_iff]
        intro a ha
        simp [h z (List.mem_cons_self _ _) hzx a ha]
      simp [this]

theorem removeVanishedDestination_cases (source : SourceT) (prevDestination : DestinationT) :
    ((∃ e ∈ source.Destinations, e.ID = prevDestination.ID) ∧
        removeVanishedDestination source prevDestination = Effect.skip) ∨
      ((∀ e ∈ source.Destinations, e.ID ≠ prevDestination.ID) ∧
        removeVanishedDestination source prevDestination =
          deleteConfigFromRegistry (getPipelineId source.ID prevDestination.ID)) := by
  by_cases h : ∃ e ∈ source.Destinations, e.ID = prevDestination.ID
  · exact Or.inl ⟨h, removeVanishedDestination_found _ _ h⟩
  · have h2 : ∀ e ∈ source.Destinations, e.ID ≠ prevDestination.ID :=
      fun e he hid => h ⟨e, he, hid⟩
    exact Or.inr ⟨h2, removeVanishedDestination_missing _ _ h2⟩

theorem removeVanishedDestination_ok (source : SourceT) (prevDestination : DestinationT) :
    (removeVanishedDestination source prevDestination).panicked = false := by
  rcases removeVanishedDestination_cases source prevDestination with ⟨_, h⟩ | ⟨_, h⟩ <;>
    rw [h] <;> rfl

/-- What the orphan pass does for one eligible previous source: either no source of the
new snapshot has its ID and every destination is removed, or the body ran on a source
with its ID. -/
theorem removeVanished_cases (sources : List SourceT) (prevSource : SourceT)
    (hel : eligible prevSource = true) :
    ((∀ c ∈ sources, c.ID ≠ prevSource.ID) ∧
        removeVanished sources prevSource =
          forEach prevSource.Destinations (fun destination =>
            deleteConfigFromRegistry (getPipelineId prevSource.ID destination.ID))) ∨
      ∃ c ∈ sources, c.ID = prevSource.ID ∧
        removeVanished sources prevSource =
          forEach prevSource.Destinations (removeVanishedDestination c) := by
  have hcat : prevSource.SourceDefinition.Category = "cloud" := by simpa [eligible] using hel
  rcases forFirst_cases sources (fun source => prevSource.ID == source.ID)
      (fun source => forEach prevSource.Destinations (removeVanishedDestination source)) with
    ⟨hn, hf⟩ | ⟨c, hc, hcond, hf⟩
  · left
    refine ⟨fun c hc hid => ?_, ?_⟩
    · have := hn c hc
      simp [hid] at this
    · simp [removeVanished, hcat, hf]
  · right
    have hid : prevSource.ID = c.ID := by simpa using hcond
    exact ⟨c, hc, hid.symm, by simp [removeVanished, hcat, hf]⟩

theorem removeVanished_ok (sources : List SourceT) (prevSource : SourceT) :
    (removeVanished sources prevSource).panicked = false := by
  cases hel : eligible prevSource with
  | false => rw [removeVanished_ineligible _ _ hel]; rfl
  | true =>
    rcases removeVanished_cases sources prevSource hel with ⟨_, h⟩ | ⟨c, _, _, h⟩
    · rw [h]; exact forEach_ok_of (fun _ _ => rfl)
    · rw [h]; exact forEach_ok_of (fun e _ => removeVanishedDestination_ok c e)

theorem deleteRemovedSourcesDestinations_ok (br : BlendoRegistry) (sources : List SourceT) :
    (deleteRemovedSourcesDestinations br sources).panicked = false :=
  forEach_ok_of (fun p _ => removeVanished_ok sources p)

/-- Every call of the orphan pass for a previous source is a `Remove` of one of its
destinations that no same-ID source of the new snapshot holds (source IDs unique). -/
theorem mem_removeVanished (sources : List SourceT) (prevSource : SourceT) (a : Action)
    (hu : (sources.map SourceT.ID).Nodup)
    (ha : a ∈ (removeVanished sources prevSource).actions) :
    eligible prevSource = true ∧ ∃ e ∈ prevSource.Destinations,
      a = Action.Remove (getPipelineId prevSource.ID e.ID) ∧
        ∀ c ∈ sources, c.ID = prevSource.ID → ∀ e2 ∈ c.Destinations, e2.ID ≠ e.ID := by
  cases hel : eligible prevSource with
  | false =>
    rw [removeVanished_ineligible _ _ hel] at ha
    simp [Effect.skip] at ha
  | true =>
    refine ⟨rfl, ?_⟩
    rcases removeVanished_cases sources prevSource hel with ⟨hn, h⟩ | ⟨c, hc, hid, h⟩
    · rw [h] at ha
      obtain ⟨e, he, hae⟩ := mem_forEach_actions ha
      refine ⟨e, he, by simpa [deleteConfigFromRegistry] using hae, ?_⟩
      intro c hc hid
      exact absurd hid (hn c hc)
    · rw [h] at ha
      obtain ⟨e, he, hae⟩ := mem_forEach_actions ha
      rcases removeVanishedDestination_cases c e with ⟨_, h2⟩ | ⟨hmiss, h2⟩
      · rw [h2] at hae
        simp [Effect.skip] at hae
      · rw [h2] at hae
        refine ⟨e, he, by simpa [deleteConfigFromRegistry, hid] using hae, ?_⟩
        intro c2 hc2 hid2
        have : c2 = c := source_eq_of_ID hu hc2 hc (by rw [hid2, hid])
        subst this
        exact hmiss

theorem compareDestination_ids (source prevSource : SourceT) (destination prevDestination : DestinationT)
    (a : Action) (ha : a ∈ (compareDestination source prevSource destination prevDestination).actions) :
    a.id = getPipelineId source.ID destination.ID := by
  unfold compareDestination at ha
  simp only at ha
  split at ha
  · simp [deleteConfigFromRegistry] at ha
    rw [ha]; rfl
  · split at ha
    · cases hc : getConfig source destination with
      | none => simp [hc, Effect.call, Effect.panic] at ha
      | some cfg =>
        simp [hc, Effect.call, putConfigToRegistry] at ha
        rw [ha]; rfl
    · simp [Effect.skip] at ha

theorem registerNew_ids (source : SourceT) (destination : DestinationT) (a : Action)
    (ha : a ∈ (registerNew source destination).actions) :
    a.id = getPipelineId source.ID destination.ID := by
  unfold registerNew at ha
  simp only at ha
  split at ha
  · simp [deleteConfigFromRegistry] at ha
    rw [ha]; rfl
  · cases hc : getConfig source destination with
    | none => simp [hc, Effect.call, Effect.panic] at ha
    | some cfg =>
      simp [hc, Effect.call, putConfigToRegistry] at ha
      rw [ha]; rfl

theorem diffDestination_ids (source prevSource : SourceT) (destination : DestinationT)
    (a : Action) (ha : a ∈ (diffDestination source prevSource destination).actions) :
    a.id = getPipelineId source.ID destination.ID := by
  unfold diffDestination at ha
  simp only at ha
  split at ha
  · simp [deleteConfigFromRegistry] at ha
    rw [ha]; rfl
  · rcases forFirst_cases prevSource.Destinations
        (fun prevDestination => prevDestination.ID == destination.ID)
        (compareDestination source prevSource destination) with ⟨_, hf⟩ | ⟨pd, _, _, hf⟩
    · rw [hf] at ha
      simp at ha
      exact registerNew_ids _ _ a ha
    · rw [hf] at ha
      simp at ha
      exact compareDestination_ids _ _ _ _ a ha

theorem diffSource_ids (br : BlendoRegistry) (source : SourceT) (a : Action)
    (ha : a ∈ (diffSource br source).actions) :
    eligible source = true ∧ ∃ e ∈ source.Destinations, a.id = getPipelineId source.ID e.ID := by
  cases hel : eligible source with
  | false =>
    rw [diffSource_ineligible _ _ hel] at ha
    simp [Effect.skip] at ha
  | true =>
    refine ⟨rfl, ?_⟩
    have hcat : source.SourceDefinition.Category = "cloud" := by simpa [eligible] using hel
    unfold diffSource at ha
    simp only [hcat] at ha
    cases hset : br.isConfigSet with
    | false =>
      simp [hset] at ha
      obtain ⟨e, he, hae⟩ := mem_forEach_actions ha
      exact ⟨e, he, registerNew_ids _ _ a hae⟩
    | true =>
      rcases forFirst_cases br.currentSourceJSON.Sources
          (fun prevSource => prevSource.ID == source.ID)
          (fun prevSource => forEach source.Destinations (diffDestination source prevSource)) with
        ⟨_, hf⟩ | ⟨p, _, _, hf⟩
      · simp [hset, hf] at ha
        obtain ⟨e, he, hae⟩ := mem_forEach_actions ha
        exact ⟨e, he, registerNew_ids _ _ a hae⟩
      · simp [hset, hf] at ha
        obtain ⟨e, he, hae⟩ := mem_forEach_actions ha
        exact ⟨e, he, diffDestination_ids _ _ _ a hae⟩

theorem calculateDifferences_ids (br : BlendoRegistry) (sources : List SourceT) (a : Action)
    (ha : a ∈ (calculateDifferencesAndUpdateRegistry br sources).actions) :
    ∃ s ∈ sources, eligible s = true ∧ ∃ e ∈ s.Destinations, a.id = getPipelineId s.ID e.ID := by
  obtain ⟨s, hs, has⟩ := mem_forEach_actions ha
  obtain ⟨hel, h⟩ := diffSource_ids br s a has
  exact ⟨s, hs, hel, h⟩

theorem handleSources_actions (prev cur : List SourceT) :
    (handleSources ⟨⟨prev⟩, true⟩ cur).actions =
      (deleteRemovedSourcesDestinations ⟨⟨prev⟩, true⟩ cur).actions ++
        (calculateDifferencesAndUpdateRegistry ⟨⟨prev⟩, true⟩ cur).actions := by
  simp only [handleSources, if_true]
  exact andThen_actions_of_ok _ _ (deleteRemovedSourcesDestinations_ok _ _)

theorem deleteRemoved_actions (prev cur : List SourceT) :
    (deleteRemovedSourcesDestinations ⟨⟨prev⟩, true⟩ cur).actions =
      prev.flatMap (fun p => (removeVanished cur p).actions) :=
  (forEach_ok_actions (deleteRemovedSourcesDestinations_ok ⟨⟨prev⟩, true⟩ cur)).1

/-! ## Deletion completeness and the remove rule -/

theorem filter_id_single (pid : String) :
    [Action.Remove pid].filter (fun a => a.id == pid) = [Action.Remove pid] := by
  simp [Action.id]

/-- C2 (amended). Deletion completeness: with `isConfigSet = true` and unique IDs in both
snapshots, for every destination `d` of an eligible previous source `p` such that either
no source of the new snapshot has the ID of `p`, or the source of the new snapshot with
that ID has no destination with the ID of `d`, and provided no other pair of either
snapshot has the same pipeline ID string, the calls issued for the pipeline ID of
`(p, d)` are exactly one `Remove` and no `Apply`. -/
theorem handleSources_deletion_complete (prev cur : List SourceT) (p : SourceT)
    (d : DestinationT) (huP : uniqueIDs prev) (huC : uniqueIDs cur)
    (hp : p ∈ prev) (hel : eligible p = true) (hd : d ∈ p.Destinations)
    (hgone : (∀ c ∈ cur, c.ID ≠ p.ID) ∨
      ∃ c ∈ cur, c.ID = p.ID ∧ ∀ e ∈ c.Destinations, e.ID ≠ d.ID)
    (hpid : pidUnique prev cur p.ID d.ID) :
    (handleSources ⟨⟨prev⟩, true⟩ cur).actions.filter
        (fun a => a.id == getPipelineId p.ID d.ID) =
      [Action.Remove (getPipelineId p.ID d.ID)] := by
  rw [handleSources_actions, List.filter_append]
  -- the transition pass issues nothing for this pipeline ID
  have htrans : (calculateDifferencesAndUpdateRegistry ⟨⟨prev⟩, true⟩ cur).actions.filter
      (fun a => a.id == getPipelineId p.ID d.ID) = [] := by
    rw [List.filter_eq_nil_iff]
    intro a ha hq
    obtain ⟨c, hc, _, e, he, hid⟩ := calculateDifferences_ids _ _ a ha
    have hq2 : a.id = getPipelineId p.ID d.ID := by simpa using hq
    obtain ⟨h1, h2⟩ := hpid c (List.mem_append_right _ hc) e he (by rw [← hid, hq2])
    rcases hgone with hg | ⟨c0, hc0, hid0, hg⟩
    · exact hg c hc h1
    · have : c = c0 := source_eq_of_ID huC.1 hc hc0 (by rw [h1, hid0])
      subst this
      exact hg e he h2
  rw [htrans, List.append_nil, deleteRemoved_actions]
  -- in the orphan pass only the previous source `p` issues calls for it
  rw [filter_flatMap_unique prev p _ _ (List.Nodup.of_map _ huP.1) hp]
  · -- and among the destinations of `p` only `d`
    have hdests : ∀ (f : DestinationT → Effect),
        (∀ e ∈ p.Destinations, (f e).panicked = false) →
        (∀ e ∈ p.Destinations, ∀ a ∈ (f e).actions, a.id = getPipelineId p.ID e.ID) →
        (f d).actions = [Action.Remove (getPipelineId p.ID d.ID)] →
        (forEach p.Destinations f).actions.filter (fun a => a.id == getPipelineId p.ID d.ID) =
          [Action.Remove (getPipelineId p.ID d.ID)] := by
      intro f hok hids hfd
      rw [(forEach_ok_actions (forEach_ok_of hok)).1]
      rw [filter_flatMap_unique p.Destinations d _ _ (List.Nodup.of_map _ (huP.2 p hp)) hd]
      · rw [hfd]; exact filter_id_single _
      · intro e he hne a ha
        have hid := hids e he a ha
        by_contra hq
        have hq2 : a.id = getPipelineId p.ID d.ID := by simpa using hq
        obtain ⟨_, h2⟩ := hpid p (List.mem_append_left _ hp) e he (by rw [← hid, hq2])
        exact hne (destination_eq_of_ID (huP.2 p hp) he hd h2)
    rcases removeVanished_cases cur p hel with ⟨_, h⟩ | ⟨c, hc, hcid, h⟩
    · rw [h]
      apply hdests
      · intro e _; rfl
      · intro e _ a ha
        simp [deleteConfigFromRegistry] at ha
        rw [ha]; rfl
      · rfl
    · rw [h]
      rcases hgone with hg | ⟨c0, hc0, hid0, hg⟩
      · exact absurd hcid (hg c hc)
      · have : c = c0 := source_eq_of_ID huC.1 hc hc0 (by rw [hcid, hid0])
        subst this
        apply hdests
        · intro e _; exact removeVanishedDestination_ok c e
        · intro e _ a ha
          rcases removeVanishedDestination_cases c e with ⟨_, h2⟩ | ⟨_, h2⟩
          · rw [h2] at ha; simp [Effect.skip] at ha
          · rw [h2] at ha
            simp [deleteConfigFromRegistry] at ha
            rw [ha, hcid]; rfl
        · rw [removeVanishedDestination_missing c d hg, hcid]; rfl
  · intro q hq hne a ha
    obtain ⟨_, e, he, hae, _⟩ := mem_removeVanished cur q a huC.1 ha
    by_contra hcontra
    have hq2 : a.id = getPipelineId p.ID d.ID := by simpa using hcontra
    rw [hae] at hq2
    obtain ⟨h1, _⟩ := hpid q (List.mem_append_left _ hq) e he hq2
    exact hne (source_eq_of_ID huP.1 hq hp h1)

/-- Witness for C2: `D1` vanishes from `S1` (and `S2` vanishes as a whole). -/
theorem handleSources_deletion_complete_witness :
    (handleSources ⟨⟨[srcS1 [destD1, destD2], srcS2]⟩, true⟩ [srcS1 [destD2]]).actions.filter
        (fun a => a.id == getPipelineId (srcS1 [destD1, destD2]).ID destD1.ID) =
      [Action.Remove (getPipelineId (srcS1 [destD1, destD2]).ID destD1.ID)] :=
  handleSources_deletion_complete [srcS1 [destD1, destD2], srcS2] [srcS1 [destD2]]
    (srcS1 [destD1, destD2]) destD1 (by decide) (by decide) (by simp) rfl (by simp [srcS1])
    (Or.inr ⟨srcS1 [destD2], by simp, rfl, by decide⟩) (by decide)

/-- C2 (as stated) fails: the stored snapshot holds sources `a` (destination `b_c`) and
`a_b` (destination `c`), all IDs unique, and both are absent from the new, empty snapshot.
Both pairs have the pipeline ID `a_b_c`, which receives two `Remove` calls, not one. -/
theorem handleSources_deletion_complete_counterexample :
    uniqueIDs [srcA, srcAB] ∧
      (handleSources ⟨⟨[srcA, srcAB]⟩, true⟩ []).actions.filter
          (fun a => a.id == getPipelineId "a" "b_c") =
        [Action.Remove "a_b_c", Action.Remove "a_b_c"] :=
  ⟨by decide, rfl⟩

/-- C5 (amended). Remove rule for an existing destination: with `isConfigSet = true` and
unique IDs, for an eligible source `s` of the new snapshot found in the stored one as `p`
with the same `Deleted` flag and a destination `d` of `s` found in `p` as `pd`, if the
`Deleted` flag of the destination differs or `IsConnectionEnabled` went from true to
false, then, provided the run does not panic in the mapper and no other pair of either
snapshot has the same pipeline ID string, the calls issued for the pipeline ID of
`(s, d)` are exactly one `Remove`, whatever else changed in the pair. -/
theorem handleSources_remove_rule (prev cur : List SourceT) (s p : SourceT)
    (d pd : DestinationT) (huP : uniqueIDs prev) (huC : uniqueIDs cur)
    (hs : s ∈ cur) (hel : eligible s = true) (hp : p ∈ prev) (hid : p.ID = s.ID)
    (hdel : s.Deleted = p.Deleted) (hd : d ∈ s.Destinations) (hpd : pd ∈ p.Destinations)
    (hdid : pd.ID = d.ID)
    (htrigger : d.Deleted ≠ pd.Deleted ∨
      (pd.IsConnectionEnabled = true ∧ d.IsConnectionEnabled = false))
    (hpid : pidUnique prev cur s.ID d.ID)
    (hok : (handleSources ⟨⟨prev⟩, true⟩ cur).panicked = false) :
    (handleSources ⟨⟨prev⟩, true⟩ cur).actions.filter
        (fun a => a.id == getPipelineId s.ID d.ID) =
      [Action.Remove (getPipelineId s.ID d.ID)] := by
  have hok2 : (calculateDifferencesAndUpdateRegistry ⟨⟨prev⟩, true⟩ cur).panicked = false := by
    simp only [handleSources, if_true] at hok
    exact andThen_ok_right _ _ hok
  rw [handleSources_actions, List.filter_append]
  -- the orphan pass issues nothing for this pipeline ID
  have horph : (deleteRemovedSourcesDestinations ⟨⟨prev⟩, true⟩ cur).actions.filter
      (fun a => a.id == getPipelineId s.ID d.ID) = [] := by
    rw [deleteRemoved_actions]
    apply filter_flatMap_nil
    intro q hq a ha
    obtain ⟨_, e, he, hae, hmiss⟩ := mem_removeVanished cur q a huC.1 ha
    by_contra hcontra
    have hq2 : a.id = getPipelineId s.ID d.ID := by simpa using hcontra
    rw [hae] at hq2
    obtain ⟨h1, h2⟩ := hpid q (List.mem_append_left _ hq) e he hq2
    exact hmiss s hs h1.symm d hd h2.symm
  rw [horph, List.nil_append]
  unfold calculateDifferencesAndUpdateRegistry at hok2 ⊢
  obtain ⟨hacts, hoks⟩ := forEach_ok_actions hok2
  rw [hacts, filter_flatMap_unique cur s _ _ (List.Nodup.of_map _ huC.1) hs]
  · have hsrc := diffSource_found prev s p hel huP.1 hp hid
    have hoks2 := hoks s hs
    rw [hsrc] at hoks2 ⊢
    obtain ⟨hacts2, _⟩ := forEach_ok_actions hoks2
    rw [hacts2, filter_flatMap_unique s.Destinations d _ _
      (List.Nodup.of_map _ (huC.2 s hs)) hd]
    · rw [diffDestination_found s p d pd hdel (huP.2 p hp) hpd hdid]
      have : compareDestination s p d pd =
          deleteConfigFromRegistry (getPipelineId s.ID d.ID) := by
        unfold compareDestination
        rcases htrigger with h | ⟨h1, h2⟩
        · simp [h]
        · simp [h1, h2]
      rw [this]
      exact filter_id_single _
    · intro e he hne a ha
      have hae := diffDestination_ids s p e a ha
      by_contra hcontra
      have hq2 : a.id = getPipelineId s.ID d.ID := by simpa using hcontra
      obtain ⟨_, h2⟩ := hpid s (List.mem_append_right _ hs) e he (by rw [← hae, hq2])
      exact hne (destination_eq_of_ID (huC.2 s hs) he hd h2)
  · intro c hc hne a ha
    obtain ⟨_, e, he, hae⟩ := diffSource_ids _ c a ha
    by_contra hcontra
    have hq2 : a.id = getPipelineId s.ID d.ID := by simpa using hcontra
    obtain ⟨h1, _⟩ := hpid c (List.mem_append_right _ hc) e he (by rw [← hae, hq2])
    exact hne (source_eq_of_ID huC.1 hc hs h1)

/-- Witness for C5: the connection of `D2` is disabled while its payload changes. -/
theorem handleSources_remove_rule_witness :
    (handleSources ⟨⟨[srcS2, srcS1 [destD1, destD2]]⟩, true⟩
        [srcS2, srcS1 [destD1, destD2Off]]).actions.filter
        (fun a => a.id == getPipelineId "S1" "D2") =
      [Action.Remove (getPipelineId "S1" "D2")] :=
  handleSources_remove_rule [srcS2, srcS1 [destD1, destD2]]
    [srcS2, srcS1 [destD1, destD2Off]]
    (srcS1 [destD1, destD2Off])
    (srcS1 [destD1, destD2])
    destD2Off destD2
    (by decide) (by decide) (by simp) rfl (by simp) rfl rfl (by simp [srcS1]) (by simp [srcS1])
    rfl (Or.inr ⟨rfl, rfl⟩) (by decide) rfl

/-- C5 (as stated) fails, in two ways. First, `S1` keeps `D1`, whose payload now carries
a numeric port, and `D2`, whose connection goes from enabled to disabled: the comparison
of `D1` panics in the mapper before `D2` is reached, so no `Remove` is issued for `S1_D2`.
Second, sources `a` (destination `b_c`) and `a_b` (destination `c`) share the pipeline ID
`a_b_c`: the connection of `b_c` is disabled while the payload of `c` changes, and two
calls are issued for that pipeline ID, a `Remove` and an `Apply`. -/
theorem handleSources_remove_rule_counterexample :
    (uniqueIDs [srcS1 [destD1, destD2]] ∧
      handleSources ⟨⟨[srcS1 [destD1, destD2]]⟩, true⟩
          [srcS1 [destD1Numeric, { destD2 with IsConnectionEnabled := false }]] =
        ⟨[], true⟩) ∧
    (uniqueIDs [srcA, srcAB] ∧ uniqueIDs [srcAOff, srcABMoved] ∧
      (handleSources ⟨⟨[srcA, srcAB]⟩, true⟩ [srcAOff, srcABMoved]).panicked = false ∧
      ((handleSources ⟨⟨[srcA, srcAB]⟩, true⟩ [srcAOff, srcABMoved]).actions.filter
          (fun a => a.id == getPipelineId "a" "b_c")).length = 2) :=
  ⟨⟨by decide, rfl⟩, by decide, by decide, rfl, rfl⟩

/-! ## No stale registry entries -/

theorem mem_pipelineIDs (l : List SourceT) (x : String) :
    x ∈ pipelineIDs l ↔
      ∃ s ∈ l, eligible s = true ∧ ∃ d ∈ s.Destinations, x = getPipelineId s.ID d.ID := by
  unfold pipelineIDs
  constructor
  · intro h
    obtain ⟨s, hs, hx⟩ := List.mem_flatMap.1 h
    obtain ⟨hs1, hs2⟩ := List.mem_filter.1 hs
    obtain ⟨d, hd, hxd⟩ := List.mem_map.1 hx
    exact ⟨s, hs1, hs2, d, hd, hxd.symm⟩
  · rintro ⟨s, hs, hel, d, hd, hx⟩
    exact List.mem_flatMap.2 ⟨s, List.mem_filter.2 ⟨hs, hel⟩, List.mem_map.2 ⟨d, hd, hx.symm⟩⟩

/-- An ID in the registry after a run was applied by the run, or was there before and
not removed by it. -/
theorem mem_applyActions (actions : List Action) (registry : List String) (x : String)
    (h : x ∈ applyActions registry actions) :
    (x ∈ registry ∧ Action.Remove x ∉ actions) ∨ ∃ cfg, Action.Apply x cfg ∈ actions := by
  induction actions generalizing registry with
  | nil => exact Or.inl ⟨h, by simp⟩
  | cons a rest ih =>
    have h2 : x ∈ applyActions (applyAction registry a) rest := h
    rcases ih _ h2 with ⟨hx, hno⟩ | ⟨cfg, hc⟩
    · cases a with
      | Remove id =>
        simp only [applyAction, List.mem_filter] at hx
        left
        refine ⟨hx.1, ?_⟩
        intro hmem
        rcases List.mem_cons.1 hmem with h3 | h3
        · injection h3 with h4
          simp [h4] at hx
        · exact hno h3
      | Apply id c =>
        simp only [applyAction] at hx
        by_cases hid : x = id
        · right
          exact ⟨c, by simp [hid]⟩
        · left
          have hx2 : x ∈ registry := by
            split at hx
            · exact hx
            · rcases List.mem_cons.1 hx with h3 | h3
              · exact absurd h3 hid
              · exact h3
          refine ⟨hx2, ?_⟩
          intro hmem
          rcases List.mem_cons.1 hmem with h3 | h3
          · cases h3
          · exact hno h3
    · right
      exact ⟨cfg, List.mem_cons_of_mem _ hc⟩

/-- Each destination of an eligible previous source is removed by the orphan pass or is
still held by a source of the new snapshot with the same source ID. -/
theorem removeVanished_complete (sources : List SourceT) (prevSource : SourceT)
    (e : DestinationT) (hel : eligible prevSource = true) (he : e ∈ prevSource.Destinations) :
    Action.Remove (getPipelineId prevSource.ID e.ID) ∈ (removeVanished sources prevSource).actions ∨
      ∃ c ∈ sources, c.ID = prevSource.ID ∧ ∃ e2 ∈ c.Destinations, e2.ID = e.ID := by
  rcases removeVanished_cases sources prevSource hel with ⟨_, h⟩ | ⟨c, hc, hcid, h⟩
  · left
    rw [h, (forEach_ok_actions (forEach_ok_of (fun _ _ => rfl))).1]
    exact List.mem_flatMap.2 ⟨e, he, by simp [deleteConfigFromRegistry]⟩
  · rcases removeVanishedDestination_cases c e with ⟨hfound, _⟩ | ⟨_, h2⟩
    · right
      exact ⟨c, hc, hcid, hfound⟩
    · left
      rw [h, (forEach_ok_actions (forEach_ok_of
        (fun e2 _ => removeVanishedDestination_ok c e2))).1]
      exact List.mem_flatMap.2 ⟨e, he, by rw [h2, hcid]; simp [deleteConfigFromRegistry]⟩

theorem removeVanished_removes (sources : List SourceT) (prevSource : SourceT) (a : Action)
    (ha : a ∈ (removeVanished sources prevSource).actions) : ∃ id, a = Action.Remove id := by
  cases hel : eligible prevSource with
  | false =>
    rw [removeVanished_ineligible _ _ hel] at ha
    simp [Effect.skip] at ha
  | true =>
    rcases removeVanished_cases sources prevSource hel with ⟨_, h⟩ | ⟨c, _, _, h⟩
    · rw [h] at ha
      obtain ⟨e, _, hae⟩ := mem_forEach_actions ha
      exact ⟨_, by simpa [deleteConfigFromRegistry] using hae⟩
    · rw [h] at ha
      obtain ⟨e, _, hae⟩ := mem_forEach_actions ha
      rcases removeVanishedDestination_cases c e with ⟨_, h2⟩ | ⟨_, h2⟩
      · rw [h2] at hae
        simp [Effect.skip] at hae
      · rw [h2] at hae
        exact ⟨_, by simpa [deleteConfigFromRegistry] using hae⟩

/-- One iteration keeps the registry within the pipeline IDs of the snapshot it stores. -/
theorem subscriberStep_invariant (st next : LoopState) (config : SourcesT)
    (hstart : st.br.isConfigSet = true ∨ st.registry = [])
    (hinv : ∀ x ∈ st.registry, x ∈ pipelineIDs st.br.currentSourceJSON.Sources)
    (hkeep : keepsEligible st.br.currentSourceJSON config)
    (hstep : subscriberStep st config = some next) :
    next.br.isConfigSet = true ∧
      ∀ x ∈ next.registry, x ∈ pipelineIDs next.br.currentSourceJSON.Sources := by
  obtain ⟨⟨⟨prev⟩, b⟩, registry⟩ := st
  unfold subscriberStep at hstep
  simp only at hstep hstart hinv hkeep
  split at hstep
  · cases hstep
  · injection hstep with hnext
    subst hnext
    refine ⟨rfl, ?_⟩
    intro x hx
    simp only at hx ⊢
    rcases mem_applyActions _ _ x hx with ⟨hreg, hno⟩ | ⟨cfg, happ⟩
    · -- the ID was in the registry before and was not removed
      have hb : b = true := by
        rcases hstart with h | h
        · exact h
        · rw [h] at hreg; cases hreg
      subst hb
      obtain ⟨p, hp, hel, d, hd, hxd⟩ := (mem_pipelineIDs prev x).1 (hinv x hreg)
      rcases removeVanished_complete config.Sources p d hel hd with hrem | ⟨c, hc, hcid, e2, he2, heid⟩
      · exfalso
        apply hno
        rw [handleSources_actions, hxd]
        apply List.mem_append_left
        rw [deleteRemoved_actions]
        exact List.mem_flatMap.2 ⟨p, hp, hrem⟩
      · exact (mem_pipelineIDs _ x).2
          ⟨c, hc, hkeep p hp hel c hc hcid, e2, he2, by rw [hxd, hcid, heid]⟩
    · -- the ID was applied by this run
      have hsrc : Action.Apply x cfg ∈
          (calculateDifferencesAndUpdateRegistry ⟨⟨prev⟩, b⟩ config.Sources).actions := by
        unfold handleSources at happ
        rcases mem_andThen_actions happ with h | h
        · cases b with
          | false => simp [Effect.skip] at h
          | true =>
            simp only [if_true] at h
            obtain ⟨p, _, hp⟩ := mem_forEach_actions h
            obtain ⟨id, hid⟩ := removeVanished_removes _ _ _ hp
            cases hid
        · exact h
      obtain ⟨s, hs, hel, e, he, hid⟩ := calculateDifferences_ids _ _ _ hsrc
      exact (mem_pipelineIDs _ x).2 ⟨s, hs, hel, e, he, hid⟩

theorem backendConfigSubscriber_invariant (snaps : List SourcesT) (st final : LoopState)
    (hstart : st.br.isConfigSet = true ∨ st.registry = [])
    (hinv : ∀ x ∈ st.registry, x ∈ pipelineIDs st.br.currentSourceJSON.Sources)
    (hkeep : List.Chain keepsEligible st.br.currentSourceJSON snaps)
    (hrun : backendConfigSubscriber st snaps = some final) :
    ∀ x ∈ final.registry, x ∈ pipelineIDs final.br.currentSourceJSON.Sources := by
  induction snaps generalizing st with
  | nil =>
    simp only [backendConfigSubscriber] at hrun
    injection hrun with h
    subst h
    exact hinv
  | cons config rest ih =>
    obtain ⟨hk1, hk2⟩ := List.chain_cons.1 hkeep
    simp only [backendConfigSubscriber] at hrun
    cases hstep : subscriberStep st config with
    | none => rw [hstep] at hrun; cases hrun
    | some next =>
      rw [hstep] at hrun
      obtain ⟨h1, h2⟩ := subscriberStep_invariant st next config hstart hinv hk1 hstep
      have hstored : next.br.currentSourceJSON = config := by
        unfold subscriberStep at hstep
        simp only at hstep
        split at hstep
        · cases hstep
        · injection hstep with h
          rw [← h]
      exact ih next (Or.inl h1) h2 (by rw [hstored]; exact hk2) hrun

/-- C9 (amended). No stale or orphaned registry entries: start from an empty registry and
`isConfigSet = false` and let the loop process any finite sequence of snapshots without a
panic in the mapper. If no source ID that is eligible in one snapshot is carried by an
ineligible source in the next one, every pipeline ID in the registry afterwards is
`sourceID_destinationID` for a destination of an eligible source of the snapshot stored
last. -/
theorem registry_no_stale_entries (snaps : List SourcesT) (final : LoopState)
    (hkeep : List.Chain' keepsEligible snaps)
    (hrun : backendConfigSubscriber initialState snaps = some final) :
    ∀ id ∈ final.registry, ∃ s ∈ final.br.currentSourceJSON.Sources, eligible s = true ∧
      ∃ d ∈ s.Destinations, id = getPipelineId s.ID d.ID := by
  intro id hid
  apply (mem_pipelineIDs _ id).1
  refine backendConfigSubscriber_invariant snaps initialState final (Or.inr rfl)
    (fun x hx => by cases hx) ?_ hrun id hid
  cases snaps with
  | nil => exact List.Chain.nil
  | cons s rest =>
    refine List.Chain.cons ?_ hkeep
    intro p hp
    cases hp

/-- Witness for C9: after `sampleFeed` the registry entry `S1_D2` belongs to the stored
snapshot. -/
theorem registry_no_stale_entries_witness :
    List.Chain' keepsEligible sampleFeed ∧
      backendConfigSubscriber initialState sampleFeed = some sampleFinal ∧
      ∃ s ∈ sampleFinal.br.currentSourceJSON.Sources, eligible s = true ∧
        ∃ d ∈ s.Destinations, "S1_D2" = getPipelineId s.ID d.ID :=
  ⟨List.chain'_cons.2 ⟨by decide, List.chain'_singleton _⟩, rfl,
    registry_no_stale_entries sampleFeed sampleFinal
      (List.chain'_cons.2 ⟨by decide, List.chain'_singleton _⟩) rfl "S1_D2" (by decide)⟩

/-- C9 (as stated) fails: the first snapshot holds eligible `S1` with `D1`; in the second
one `S1` carries another category and still holds `D1`. Both passes skip the pair, so the
registry keeps `S1_D1` although the stored snapshot has no eligible source. -/
theorem registry_no_stale_entries_counterexample :
    uniqueIDs [srcS1 [destD1]] ∧ uniqueIDs [srcS1Event [destD1]] ∧
      (backendConfigSubscriber initialState [⟨[srcS1 [destD1]]⟩, ⟨[srcS1Event [destD1]]⟩]).map
          (fun st => (st.registry, pipelineIDs st.br.currentSourceJSON.Sources)) =
        some (["S1_D1"], []) :=
  ⟨by decide, by decide, rfl⟩

/-! ## Pipeline identity -/

theorem split_at_first {α : Type} (a : α) (l1 l2 r1 r2 : List α) (h1 : a ∉ l1) (h2 : a ∉ l2)
    (h : l1 ++ a :: r1 = l2 ++ a :: r2) : l1 = l2 ∧ r1 = r2 := by
  induction l1 generalizing l2 with
  | nil =>
    cases l2 with
    | nil => simpa using h
    | cons y ys =>
      simp only [List.nil_append, List.cons_append, List.cons.injEq] at h
      exact absurd (h.1 ▸ List.mem_cons_self _ _) h2
  | cons x xs ih =>
    cases l2 with
    | nil =>
      simp only [List.nil_append, List.cons_append, List.cons.injEq] at h
      exact absurd (h.1 ▸ List.mem_cons_self _ _) h1
    | cons y ys =>
      simp only [List.cons_append, List.cons.injEq] at h
      obtain ⟨hxy, hrest⟩ := h
      obtain ⟨h3, h4⟩ := ih ys (fun hm => h1 (List.mem_cons_of_mem _ hm))
        (fun hm => h2 (List.mem_cons_of_mem _ hm)) hrest
      exact ⟨by rw [hxy, h3], h4⟩

theorem split_at_last {α : Type} (a : α) (l1 l2 r1 r2 : List α) (h1 : a ∉ r1) (h2 : a ∉ r2)
    (h : l1 ++ a :: r1 = l2 ++ a :: r2) : l1 = l2 ∧ r1 = r2 := by
  have hrev : r1.reverse ++ a :: l1.reverse = r2.reverse ++ a :: l2.reverse := by
    have := congrArg List.reverse h
    simpa using this
  obtain ⟨h3, h4⟩ := split_at_first a r1.reverse r2.reverse l1.reverse l2.reverse
    (by simpa using h1) (by simpa using h2) hrev
  exact ⟨List.reverse_injective h4, List.reverse_injective h3⟩

theorem getPipelineId_data (s d : String) :
    (getPipelineId s d).data = s.data ++ '_' :: d.data := by
  simp [getPipelineId, String.data_append]

/-- C15 (amended). Pipeline identity: `getPipelineId s d` is `s ++ "_" ++ d`, and two pairs
with the same pipeline ID are the same pair whenever the two source IDs contain no
underscore, or the two destination IDs contain none. -/
theorem getPipelineId_injective (s1 s2 d1 d2 : String)
    (hclean : (noUnderscore s1 ∧ noUnderscore s2) ∨ (noUnderscore d1 ∧ noUnderscore d2))
    (h : getPipelineId s1 d1 = getPipelineId s2 d2) :
    getPipelineId s1 d1 = s1 ++ "_" ++ d1 ∧ s1 = s2 ∧ d1 = d2 := by
  refine ⟨rfl, ?_⟩
  have hd : s1.data ++ '_' :: d1.data = s2.data ++ '_' :: d2.data := by
    rw [← getPipelineId_data, ← getPipelineId_data, h]
  rcases hclean with ⟨h1, h2⟩ | ⟨h1, h2⟩
  · obtain ⟨h3, h4⟩ := split_at_first '_' _ _ _ _ h1 h2 hd
    exact ⟨String.ext h3, String.ext h4⟩
  · obtain ⟨h3, h4⟩ := split_at_last '_' _ _ _ _ h1 h2 hd
    exact ⟨String.ext h3, String.ext h4⟩

/-- Witness for C15: the pipeline ID `S1_D1` determines its pair. -/
theorem getPipelineId_injective_witness :
    getPipelineId "S1" "D1" = "S1" ++ "_" ++ "D1" ∧ "S1" = "S1" ∧ "D1" = "D1" :=
  getPipelineId_injective "S1" "S1" "D1" "D1" (Or.inl ⟨by decide, by decide⟩) rfl

/-- C15 (as stated) fails: the distinct pairs `(a, b_c)` and `(a_b, c)` have the same
pipeline ID `a_b_c`. -/
theorem getPipelineId_injective_counterexample :
    getPipelineId "a" "b_c" = getPipelineId "a_b" "c" ∧ "a" ≠ "a_b" ∧ "b_c" ≠ "c" :=
  ⟨by decide, by decide, by decide⟩

/-! ## The loop of `mapDestinationconfig` -/

theorem lookupKey_cons (k key : String) (value : JVal) (rest : ConfigMap) :
    lookupKey k ((key, value) :: rest) = if key = k then some value else lookupKey k rest := rfl

theorem lookupKey_assign (k key : String) (value : JVal) (m : ConfigMap) :
    lookupKey k (assign key value m) = if key = k then some value else lookupKey k m := by
  induction m with
  | nil => simp [assign, lookupKey]
  | cons e rest ih =>
    obtain ⟨k2, v2⟩ := e
    by_cases h : k2 = key
    · subst h
      by_cases h2 : k2 = k <;> simp [assign, lookupKey, h2]
    · by_cases h2 : k2 = k
      · subst h2
        have h3 : ¬ key = k2 := fun h4 => h h4.symm
        simp [assign, lookupKey, h, h3]
      · simp [assign, lookupKey, h, h2, ih]

theorem mapDestinationconfigLoop_cons (seen : List String) (key : String) (value : JVal)
    (rest desConfog : ConfigMap) :
    mapDestinationconfigLoop seen ((key, value) :: rest) desConfog =
      if key ∈ seen then mapDestinationconfigLoop seen rest desConfog
      else
        match convertEntry key value with
        | none => none
        | some kv => mapDestinationconfigLoop (key :: seen) rest (assign kv.1 kv.2 desConfog) := by
  by_cases hs : key ∈ seen
  · simp [mapDestinationconfigLoop, hs]
  · by_cases hu : key = "user"
    · simp [mapDestinationconfigLoop, hs, hu, convertEntry]
    · by_cases hp : key = "port"
      · cases value <;> simp [mapDestinationconfigLoop, hs, hp, convertEntry]
      · simp [mapDestinationconfigLoop, hs, hu, hp, convertEntry]

theorem convertEntry_isSome (key : String) (value : JVal) :
    (convertEntry key value).isSome = true ↔ (key = "port" → ∃ s, value = JVal.str s) := by
  by_cases hu : key = "user"
  · subst hu
    simp [convertEntry]
  · by_cases hp : key = "port"
    · subst hp
      cases value <;> simp [convertEntry]
    · simp [convertEntry, hu, hp]

/-- The loop returns exactly when the first unseen port entry, if any, is text. -/
theorem mapDestinationconfigLoop_isSome (rest : ConfigMap) (seen : List String)
    (desConfog : ConfigMap) :
    (mapDestinationconfigLoop seen rest desConfog).isSome = true ↔
      ("port" ∈ seen ∨ ∀ v, lookupKey "port" rest = some v → ∃ s, v = JVal.str s) := by
  induction rest generalizing seen desConfog with
  | nil => simp [mapDestinationconfigLoop, lookupKey]
  | cons e rest ih =>
    obtain ⟨key, value⟩ := e
    rw [mapDestinationconfigLoop_cons]
    by_cases hs : key ∈ seen
    · simp only [hs, if_true]
      rw [ih]
      by_cases hps : "port" ∈ seen
      · simp [hps]
      · have hk : ¬ key = "port" := fun h => hps (h ▸ hs)
        simp [hps, lookupKey_cons, hk]
    · simp only [hs, if_false]
      by_cases hp : key = "port"
      · subst hp
        cases hc : convertEntry "port" value with
        | none =>
          have h1 : ¬ ∃ s, value = JVal.str s := by
            intro h2
            have := (convertEntry_isSome "port" value).2 (fun _ => h2)
            simp [hc] at this
          simp only [Option.isSome_none, Bool.false_eq_true, false_iff]
          rintro (h2 | h2)
          · exact hs h2
          · exact h1 (h2 value (by simp [lookupKey_cons]))
        | some kv =>
          have h1 : ∃ s, value = JVal.str s := by
            have := (convertEntry_isSome "port" value).1 (by simp [hc]) rfl
            exact this
          simp only []
          rw [ih]
          simp only [List.mem_cons, true_or, true_iff]
          right
          intro v hv
          simp [lookupKey_cons] at hv
          rw [← hv]
          exact h1
      · have hsome := (convertEntry_isSome key value).2 (fun h => absurd h hp)
        cases hc : convertEntry key value with
        | none => simp [hc] at hsome
        | some kv =>
          simp only []
          rw [ih]
          have hne : ¬ "port" = key := fun h => hp h.symm
          simp [List.mem_cons, hne, lookupKey_cons, hp]

theorem mapDestinationconfig_isSome (config : Option ConfigMap) :
    (mapDestinationconfig config).isSome = true ↔ textPort config := by
  cases config with
  | none => simp [mapDestinationconfig, textPort, entriesOf, lookupKey]
  | some kvs =>
    simp only [mapDestinationconfig, textPort, entriesOf, Option.getD_some]
    rw [mapDestinationconfigLoop_isSome]
    simp

/-! ## Shape of the mapped configuration -/

theorem getResourcesLoop_some (resources : List JVal) (acc result : List BlendoResourcesT) :
    getResourcesLoop resources acc = some result ↔
      ∃ roles : List String, resources = roles.map JVal.str ∧
        result = acc ++ roles.map BlendoResourcesT.mk := by
  induction resources generalizing acc with
  | nil =>
    simp only [getResourcesLoop, Option.some.injEq]
    constructor
    · intro h
      exact ⟨[], rfl, by simp [h]⟩
    · rintro ⟨roles, h1, h2⟩
      have : roles = [] := by
        cases roles with
        | nil => rfl
        | cons r rs => simp at h1
      subst this
      simp [h2]
  | cons x rest ih =>
    cases x with
    | str role =>
      simp only [getResourcesLoop]
      rw [ih]
      constructor
      · rintro ⟨roles, h1, h2⟩
        exact ⟨role :: roles, by simp [h1], by simp [h2]⟩
      · rintro ⟨roles, h1, h2⟩
        cases roles with
        | nil => simp at h1
        | cons r rs =>
          simp only [List.map_cons, List.cons.injEq, JVal.str.injEq] at h1
          obtain ⟨hr, hrest⟩ := h1
          subst hr
          exact ⟨rs, hrest, by simp [h2]⟩
    | null | bool _ | num _ | int _ | arr _ | obj _ =>
      simp only [getResourcesLoop]
      constructor
      · intro h; cases h
      · rintro ⟨roles, h1, _⟩
        cases roles with
        | nil => simp at h1
        | cons r rs => simp at h1

theorem sourceResources_isSome (source : SourceT) :
    (sourceResources source).isSome = true ↔ textResources source.Config := by
  unfold sourceResources textResources
  cases hidx : index source.Config "resources" with
  | null => simp
  | arr xs =>
    simp only [Option.isSome_map', false_or, JVal.arr.injEq, reduceCtorEq]
    constructor
    · intro h
      cases hr : getResources xs with
      | none => simp [hr] at h
      | some r =>
        obtain ⟨roles, h1, _⟩ := (getResourcesLoop_some xs [] r).1 hr
        exact ⟨roles, h1⟩
    · rintro ⟨roles, h1⟩
      have : getResources xs = some ([] ++ roles.map BlendoResourcesT.mk) :=
        (getResourcesLoop_some xs [] _).2 ⟨roles, h1, rfl⟩
      simp [this]
  | bool _ | num _ | int _ | str _ | obj _ => simp

/-- C12. Shape of the mapped pipeline config: whenever `getConfig` returns `cfg` for a
source and a destination, `cfg` has the source's definition name and full payload, the
sink role `postgres` for the definition name `POSTGRES` and the empty role otherwise, the
sink options `mapDestinationconfig` gives, the schedule `once_per_hour` with all other
fields zero, no resources when the field is absent and otherwise the roles of the
`resources` list in order, one per element, and `Paused` the negation of
`IsProcessorEnabled`. -/
theorem getConfig_shape (source : SourceT) (destination : DestinationT)
    (cfg : BlendoRegistryPipelineConfigT) (h : getConfig source destination = some cfg) :
    cfg.Source.Role = source.SourceDefinition.Name ∧
      cfg.Source.Options = source.Config ∧
      cfg.Sink.Role =
        (if destination.DestinationDefinition.Name = "POSTGRES" then "postgres" else "") ∧
      mapDestinationconfig destination.Config = some cfg.Sink.Options ∧
      cfg.Schedule = ⟨"once_per_hour", "", 0, 0, 0⟩ ∧
      (index source.Config "resources" = JVal.null → cfg.Resources = none) ∧
      (∀ xs, index source.Config "resources" = JVal.arr xs →
        ∃ roles : List String, xs = roles.map JVal.str ∧
          cfg.Resources = some (roles.map BlendoResourcesT.mk) ∧
          (roles.map BlendoResourcesT.mk).length = xs.length) ∧
      cfg.Paused = !destination.IsProcessorEnabled := by
  cases hr : sourceResources source with
  | none => simp [getConfig, hr] at h
  | some resources =>
    cases ho : mapDestinationconfig destination.Config with
    | none => simp [getConfig, hr, ho] at h
    | some options =>
      simp only [getConfig, hr, ho, Option.some.injEq] at h
      subst h
      refine ⟨rfl, rfl, rfl, rfl, rfl, ?_, ?_, rfl⟩
      · intro hnull
        simp only [sourceResources, hnull, Option.some.injEq] at hr
        exact hr.symm
      · intro xs hxs
        simp only [sourceResources, hxs, Option.map_eq_some'] at hr
        obtain ⟨r, hr1, hr2⟩ := hr
        obtain ⟨roles, h1, h2⟩ := (getResourcesLoop_some xs [] r).1 hr1
        refine ⟨roles, h1, ?_, by simp [h1]⟩
        simp only
        rw [← hr2, h2]
        simp

/-- Witness for C12: the configuration mapped for `S1` and `D1`. -/
theorem getConfig_shape_witness :
    getConfig (srcS1 [destD1]) destD1 = some sampleConfig ∧
      sampleConfig.Sink.Role =
        (if destD1.DestinationDefinition.Name = "POSTGRES" then "postgres" else "") ∧
      sampleConfig.Schedule = ⟨"once_per_hour", "", 0, 0, 0⟩ ∧
      sampleConfig.Paused = !destD1.IsProcessorEnabled :=
  ⟨rfl, (getConfig_shape (srcS1 [destD1]) destD1 sampleConfig rfl).2.2.1,
    (getConfig_shape (srcS1 [destD1]) destD1 sampleConfig rfl).2.2.2.2.1,
    (getConfig_shape (srcS1 [destD1]) destD1 sampleConfig rfl).2.2.2.2.2.2.2⟩

/-- C14 (amended). Mapping aborts only on a failed type assertion: `getConfig` returns a
pipeline config exactly when the destination's `port`, if present, holds text and the
source's `resources` is absent (or null) or a list whose elements are all text. -/
theorem getConfig_returns_iff (source : SourceT) (destination : DestinationT) :
    (getConfig source destination).isSome = true ↔
      (textResources source.Config ∧ textPort destination.Config) := by
  rw [← sourceResources_isSome, ← mapDestinationconfig_isSome]
  cases hr : sourceResources source <;>
    cases ho : mapDestinationconfig destination.Config <;>
    simp [getConfig, hr, ho]

/-- C14 (as stated) fails: `getConfig` panics when the port is a number, when `resources`
is text instead of a list, and when an element of `resources` is a number. -/
theorem getConfig_returns_counterexample :
    getConfig (srcS1 [destD1Numeric]) destD1Numeric = none ∧
      getConfig srcBadResources destD1 = none ∧
      getConfig srcBadRole destD1 = none :=
  ⟨rfl, rfl, rfl⟩

/-! ## `strconv.Atoi` -/

theorem le_decimalValue (cs : List Char) (n : Nat) : n ≤ decimalValue cs n := by
  induction cs generalizing n with
  | nil => exact Nat.le_refl _
  | cons c cs ih =>
    simp only [decimalValue]
    have := ih (n * 10 + (c.toNat - 48))
    omega

theorem parseUintLoop_digits (cs : List Char) (n : Nat) (hd : ∀ c ∈ cs, isDigit c)
    (hmax : decimalValue cs n ≤ maxUint64) :
    parseUintLoop cs n = ParseUint.value (decimalValue cs n) := by
  induction cs generalizing n with
  | nil => rfl
  | cons c cs ih =>
    have hc : '0' ≤ c ∧ c ≤ '9' := hd c (List.mem_cons_self _ _)
    simp only [decimalValue] at hmax ⊢
    have hle := le_decimalValue cs (n * 10 + (c.toNat - 48))
    have h1 : ¬ n ≥ maxUint64 / 10 + 1 := by
      unfold maxUint64 at hmax ⊢
      omega
    have h2 : ¬ n * 10 + (c.toNat - 48) > maxUint64 := by omega
    simp only [parseUintLoop, hc, and_self, if_true, h1, h2, if_false]
    exact ih _ (fun x hx => hd x (List.mem_cons_of_mem _ hx)) hmax

theorem parseUintLoop_syntax (ds : List Char) (c : Char) (rest : List Char) (n : Nat)
    (hd : ∀ x ∈ ds, isDigit x) (hc : ¬ isDigit c) (hmax : decimalValue ds n ≤ maxUint64) :
    parseUintLoop (ds ++ c :: rest) n = ParseUint.syntaxError := by
  induction ds generalizing n with
  | nil =>
    have hc2 : ¬ ('0' ≤ c ∧ c ≤ '9') := hc
    simp [parseUintLoop, hc2]
  | cons x xs ih =>
    have hx : '0' ≤ x ∧ x ≤ '9' := hd x (List.mem_cons_self _ _)
    simp only [decimalValue] at hmax
    have hle := le_decimalValue xs (n * 10 + (x.toNat - 48))
    have h1 : ¬ n ≥ maxUint64 / 10 + 1 := by
      unfold maxUint64 at hmax ⊢
      omega
    have h2 : ¬ n * 10 + (x.toNat - 48) > maxUint64 := by omega
    simp only [List.cons_append, parseUintLoop, hx, and_self, if_true, h1, h2, if_false]
    exact ih _ (fun y hy => hd y (List.mem_cons_of_mem _ hy)) hmax

theorem atoi_eq (s : String) :
    atoi s =
      match s.data with
      | [] => 0
      | c :: _ =>
        match unsignedPart s with
        | [] => 0
        | d :: ds =>
          match parseUintLoop (d :: ds) 0 with
          | ParseUint.value n => clampInt (c == '-') n
          | ParseUint.syntaxError => 0
          | ParseUint.rangeError => clampInt (c == '-') maxUint64 := by
  unfold atoi unsignedPart
  cases hs : s.data with
  | nil => rfl
  | cons c cs =>
    simp only
    generalize (if (c == '+' || c == '-') = true then cs else c :: cs) = body
    cases body <;> rfl

/-- On text with a syntax error the value returned by `strconv.Atoi` is `0`. -/
theorem atoi_syntaxError (s : String) (h : syntaxErrorText s) : atoi s = 0 := by
  rw [atoi_eq]
  cases hs : s.data with
  | nil => rfl
  | cons c cs =>
    simp only
    rcases h with h | ⟨ds, x, rest, hbody, hd, hx, hmax⟩
    · rw [h]
    · rw [hbody]
      have hp := parseUintLoop_syntax ds x rest 0 hd hx hmax
      cases hds : ds ++ x :: rest with
      | nil => rfl
      | cons y ys =>
        rw [hds] at hp
        simp only [hp]

/-- On a run of decimal digits denoting a number below `2 ^ 63` the value returned by
`strconv.Atoi` is that number. -/
theorem atoi_denotes (s : String) (n : Nat) (h : denotes s n) (hn : n < 2 ^ 63) :
    atoi s = (n : Int) := by
  obtain ⟨hne, hd, hval⟩ := h
  rw [atoi_eq]
  cases hs : s.data with
  | nil => exact absurd hs hne
  | cons c cs =>
    have hc : isDigit c := hd c (by rw [hs]; exact List.mem_cons_self _ _)
    have hplus : (c == '+') = false := by
      have h1 : c ≠ '+' := by
        rintro rfl
        exact absurd hc (by decide)
      simpa using h1
    have hminus : (c == '-') = false := by
      have h1 : c ≠ '-' := by
        rintro rfl
        exact absurd hc (by decide)
      simpa using h1
    have hbody : unsignedPart s = c :: cs := by
      simp [unsignedPart, hs, hplus, hminus]
    rw [hs] at hd hval
    have hmax : decimalValue (c :: cs) 0 ≤ maxUint64 := by
      rw [hval]
      unfold maxUint64
      omega
    simp only [hbody, parseUintLoop_digits (c :: cs) 0 hd hmax, hval, hminus]
    have hn2 : ¬ 9223372036854775808 ≤ n := by omega
    simp [clampInt, hn2]

/-! ## What `mapDestinationconfig` writes -/

theorem convertEntry_fst (key : String) (value : JVal) (kv : String × JVal)
    (h : convertEntry key value = some kv) :
    kv.1 = if key = "user" then "username" else key := by
  by_cases hu : key = "user"
  · subst hu
    simp [convertEntry] at h
    simp [← h]
  · by_cases hp : key = "port"
    · subst hp
      cases value <;> simp [convertEntry] at h
      simp [← h]
    · simp [convertEntry, hu, hp] at h
      simp [← h, hu]

theorem convertEntry_other (key : String) (value : JVal) (hu : key ≠ "user")
    (hp : key ≠ "port") : convertEntry key value = some (key, value) := by
  simp [convertEntry, hu, hp]

/-- The output never holds the key `user`. -/
theorem mapLoop_user (rest : ConfigMap) (seen : List String) (acc out : ConfigMap)
    (h : mapDestinationconfigLoop seen rest acc = some out) :
    lookupKey "user" out = lookupKey "user" acc := by
  induction rest generalizing seen acc with
  | nil =>
    simp only [mapDestinationconfigLoop, Option.some.injEq] at h
    rw [h]
  | cons e rest ih =>
    obtain ⟨key, value⟩ := e
    rw [mapDestinationconfigLoop_cons] at h
    by_cases hs : key ∈ seen
    · simp only [hs, if_true] at h
      exact ih seen acc h
    · simp only [hs, if_false] at h
      cases hc : convertEntry key value with
      | none => simp [hc] at h
      | some kv =>
        simp only [hc] at h
        rw [ih _ _ h, lookupKey_assign]
        have hfst := convertEntry_fst key value kv hc
        have : ¬ kv.1 = "user" := by
          rw [hfst]
          by_cases hu : key = "user"
          · simp [hu]
          · simp [hu]
        simp [this]

/-- A key other than `user` and `username` is written from the first entry with that
key, through `convertEntry`. -/
theorem mapLoop_key (k : String) (hu : k ≠ "user") (hn : k ≠ "username") (rest : ConfigMap)
    (seen : List String) (acc out : ConfigMap)
    (h : mapDestinationconfigLoop seen rest acc = some out) :
    lookupKey k out =
      if k ∈ seen then lookupKey k acc
      else
        match lookupKey k rest with
        | some v => (convertEntry k v).map Prod.snd
        | none => lookupKey k acc := by
  induction rest generalizing seen acc with
  | nil =>
    simp only [mapDestinationconfigLoop, Option.some.injEq] at h
    rw [h]
    simp [lookupKey]
  | cons e rest ih =>
    obtain ⟨key, value⟩ := e
    rw [mapDestinationconfigLoop_cons] at h
    by_cases hs : key ∈ seen
    · simp only [hs, if_true] at h
      rw [ih seen acc h]
      by_cases hk : k ∈ seen
      · simp [hk]
      · have hne : ¬ key = k := fun heq => hk (heq ▸ hs)
        simp [hk, lookupKey_cons, hne]
    · simp only [hs, if_false] at h
      cases hc : convertEntry key value with
      | none => simp [hc] at h
      | some kv =>
        simp only [hc] at h
        rw [ih _ _ h, lookupKey_assign]
        have hfst := convertEntry_fst key value kv hc
        by_cases hkey : key = k
        · subst hkey
          have h1 : kv.1 = key := by simp [hfst, hu]
          simp [hs, lookupKey_cons, hc, h1]
        · have h1 : ¬ kv.1 = k := by
            rw [hfst]
            by_cases hku : key = "user"
            · simp [hku, Ne.symm hn]
            · simp [hku, hkey]
          have h2 : ¬ k = key := fun heq => hkey heq.symm
          simp [List.mem_cons, h2, h1, lookupKey_cons, hkey]

/-- The key `username` is written from `user`, or from `username` itself, when the input
does not hold both. -/
theorem mapLoop_username (rest : ConfigMap) (seen : List String) (acc out : ConfigMap)
    (h : mapDestinationconfigLoop seen rest acc = some out)
    (hnot : ("user" ∈ seen ∨ lookupKey "user" rest = none) ∨
      ("username" ∈ seen ∨ lookupKey "username" rest = none)) :
    lookupKey "username" out =
      ((if "user" ∈ seen then none else lookupKey "user" rest) <|>
        ((if "username" ∈ seen then none else lookupKey "username" rest) <|>
          lookupKey "username" acc)) := by
  induction rest generalizing seen acc with
  | nil =>
    simp only [mapDestinationconfigLoop, Option.some.injEq] at h
    rw [h]
    simp [lookupKey]
  | cons e rest ih =>
    obtain ⟨key, value⟩ := e
    rw [mapDestinationconfigLoop_cons] at h
    by_cases hs : key ∈ seen
    · simp only [hs, if_true] at h
      have hnot2 : ("user" ∈ seen ∨ lookupKey "user" rest = none) ∨
          ("username" ∈ seen ∨ lookupKey "username" rest = none) := by
        rcases hnot with (h1 | h1) | (h1 | h1)
        · exact Or.inl (Or.inl h1)
        · by_cases hx : "user" ∈ seen
          · exact Or.inl (Or.inl hx)
          · have hne : ¬ key = "user" := fun heq => hx (heq ▸ hs)
            simp only [lookupKey_cons, hne, if_false] at h1
            exact Or.inl (Or.inr h1)
        · exact Or.inr (Or.inl h1)
        · by_cases hx : "username" ∈ seen
          · exact Or.inr (Or.inl hx)
          · have hne : ¬ key = "username" := fun heq => hx (heq ▸ hs)
            simp only [lookupKey_cons, hne, if_false] at h1
            exact Or.inr (Or.inr h1)
      rw [ih seen acc h hnot2]
      have e1 : (if "user" ∈ seen then none else lookupKey "user" ((key, value) :: rest)) =
          (if "user" ∈ seen then none else lookupKey "user" rest) := by
        by_cases hx : "user" ∈ seen
        · simp [hx]
        · have hne : ¬ key = "user" := fun heq => hx (heq ▸ hs)
          simp [hx, lookupKey_cons, hne]
      have e2 : (if "username" ∈ seen then none
            else lookupKey "username" ((key, value) :: rest)) =
          (if "username" ∈ seen then none else lookupKey "username" rest) := by
        by_cases hx : "username" ∈ seen
        · simp [hx]
        · have hne : ¬ key = "username" := fun heq => hx (heq ▸ hs)
          simp [hx, lookupKey_cons, hne]
      rw [e1, e2]
    · simp only [hs, if_false] at h
      cases hc : convertEntry key value with
      | none => simp [hc] at h
      | some kv =>
        simp only [hc] at h
        have hfst := convertEntry_fst key value kv hc
        by_cases hku : key = "user"
        · -- the entry `user` is visited
          subst hku
          have hkv : kv = ("username", value) := by
            simp [convertEntry] at hc
            exact hc.symm
          subst hkv
          have hn2 : "username" ∈ seen ∨ lookupKey "username" rest = none := by
            rcases hnot with (h1 | h1) | (h1 | h1)
            · exact absurd h1 hs
            · simp [lookupKey_cons] at h1
            · exact Or.inl h1
            · simp only [lookupKey_cons] at h1
              exact Or.inr (by simpa using h1)
          rw [ih _ _ h (Or.inl (Or.inl (List.mem_cons_self _ _)))]
          simp only [List.mem_cons_self, if_true, lookupKey_assign, hs, if_false, lookupKey_cons]
          rcases hn2 with h1 | h1
          · simp [List.mem_cons, h1]
          · simp [List.mem_cons, h1]
        · by_cases hkn : key = "username"
          · -- the entry `username` is visited
            subst hkn
            have hkv : kv = ("username", value) := by
              simp [convertEntry] at hc
              exact hc.symm
            subst hkv
            have hu2 : "user" ∈ seen ∨ lookupKey "user" rest = none := by
              rcases hnot with (h1 | h1) | (h1 | h1)
              · exact Or.inl h1
              · simp only [lookupKey_cons] at h1
                exact Or.inr (by simpa using h1)
              · exact absurd h1 hs
              · simp [lookupKey_cons] at h1
            have hu3 : "user" ∈ "username" :: seen ∨ lookupKey "user" rest = none := by
              rcases hu2 with h1 | h1
              · exact Or.inl (List.mem_cons_of_mem _ h1)
              · exact Or.inr h1
            rw [ih _ _ h (Or.inl hu3)]
            simp only [List.mem_cons_self, if_true, lookupKey_assign, hs, if_false,
              lookupKey_cons]
            rcases hu2 with h1 | h1
            · simp [List.mem_cons, h1]
            · simp [List.mem_cons, h1]
          · -- another entry is visited
            have h1 : kv.1 = key := by simp [hfst, hku]
            have hnot2 : ("user" ∈ key :: seen ∨ lookupKey "user" rest = none) ∨
                ("username" ∈ key :: seen ∨ lookupKey "username" rest = none) := by
              rcases hnot with (h2 | h2) | (h2 | h2)
              · exact Or.inl (Or.inl (List.mem_cons_of_mem _ h2))
              · simp only [lookupKey_cons, hku, if_false] at h2
                exact Or.inl (Or.inr h2)
              · exact Or.inr (Or.inl (List.mem_cons_of_mem _ h2))
              · simp only [lookupKey_cons, hkn, if_false] at h2
                exact Or.inr (Or.inr h2)
            rw [ih _ _ h hnot2, lookupKey_assign]
            have h3 : ¬ "user" = key := fun heq => hku heq.symm
            have h4 : ¬ "username" = key := fun heq => hkn heq.symm
            simp [List.mem_cons, h3, h4, h1, hkn, hku, lookupKey_cons]

/-! ## Mapping fidelity and the malformed port -/

/-- C11 (amended). Mapping fidelity of `mapDestinationconfig`: for every destination
config whose `port`, when present, is text and which does not hold both `user` and
`username`, the mapping returns a map without the key `user`, in which `username` holds
the input's value under `user` (or the input's own `username` when there is no `user`),
`port` holds the value `strconv.Atoi` gives for the port text, which is the integer the
text denotes when it is a run of decimal digits below `2 ^ 63`, and every other key holds
exactly the input's value under it; there are no further keys. -/
theorem mapDestinationconfig_fidelity (config : Option ConfigMap) (hport : textPort config)
    (hboth : lookupKey "user" (entriesOf config) = none ∨
      lookupKey "username" (entriesOf config) = none) :
    ∃ out, mapDestinationconfig config = some out ∧
      lookupKey "user" out = none ∧
      lookupKey "username" out =
        (lookupKey "user" (entriesOf config) <|> lookupKey "username" (entriesOf config)) ∧
      (∀ s, lookupKey "port" (entriesOf config) = some (JVal.str s) →
        lookupKey "port" out = some (JVal.int (atoi s)) ∧
          ∀ n, denotes s n → n < 2 ^ 63 → lookupKey "port" out = some (JVal.int n)) ∧
      (lookupKey "port" (entriesOf config) = none → lookupKey "port" out = none) ∧
      ∀ k, k ≠ "user" → k ≠ "username" → k ≠ "port" →
        lookupKey k out = lookupKey k (entriesOf config) := by
  have hsome := (mapDestinationconfig_isSome config).2 hport
  cases hout : mapDestinationconfig config with
  | none => simp [hout] at hsome
  | some out =>
    have hloop : mapDestinationconfigLoop [] (entriesOf config) [] = some out := by
      cases config with
      | none =>
        simp only [mapDestinationconfig, Option.some.injEq] at hout
        simp [entriesOf, mapDestinationconfigLoop, hout]
      | some kvs => simpa [mapDestinationconfig, entriesOf] using hout
    have hportKey := mapLoop_key "port" (by decide) (by decide) _ _ _ _ hloop
    simp only [List.not_mem_nil, if_false] at hportKey
    refine ⟨out, rfl, ?_, ?_, ?_, ?_, ?_⟩
    · rw [mapLoop_user _ _ _ _ hloop]
      rfl
    · rw [mapLoop_username _ _ _ _ hloop
        (by rcases hboth with h | h
            · exact Or.inl (Or.inr h)
            · exact Or.inr (Or.inr h))]
      simp [lookupKey]
    · intro s hs
      have h1 : lookupKey "port" out = some (JVal.int (atoi s)) := by
        rw [hportKey, hs]
        simp [convertEntry]
      refine ⟨h1, ?_⟩
      intro n hden hn
      rw [h1, atoi_denotes s n hden hn]
    · intro hnone
      rw [hportKey, hnone]
      rfl
    · intro k hu hn hp
      have := mapLoop_key k hu hn _ _ _ _ hloop
      simp only [List.not_mem_nil, if_false] at this
      rw [this]
      cases hk : lookupKey k (entriesOf config) with
      | none => rfl
      | some v => simp [convertEntry_other k v hu hp]

/-- Witness for C11: the Postgres payload with user `rudder` and port `5432`. -/
theorem mapDestinationconfig_fidelity_witness :
    ∃ out, mapDestinationconfig pgOptions = some out ∧
      lookupKey "user" out = none ∧
      lookupKey "username" out =
        (lookupKey "user" (entriesOf pgOptions) <|> lookupKey "username" (entriesOf pgOptions)) ∧
      (∀ s, lookupKey "port" (entriesOf pgOptions) = some (JVal.str s) →
        lookupKey "port" out = some (JVal.int (atoi s)) ∧
          ∀ n, denotes s n → n < 2 ^ 63 → lookupKey "port" out = some (JVal.int n)) ∧
      (lookupKey "port" (entriesOf pgOptions) = none → lookupKey "port" out = none) ∧
      ∀ k, k ≠ "user" → k ≠ "username" → k ≠ "port" →
        lookupKey k out = lookupKey k (entriesOf pgOptions) :=
  mapDestinationconfig_fidelity pgOptions
    (by
      intro v hv
      simp [entriesOf, pgOptions, lookupKey] at hv
      exact ⟨"5432", hv.symm⟩)
    (Or.inr rfl)

/-- C11 (as stated) fails in three ways: a numeric port makes the mapping panic; when the
input holds `user` and then `username`, the output `username` is the input's `username`,
not its `user`; and a port text of twenty nines is mapped to the largest 64-bit integer,
not to the number it denotes. -/
theorem mapDestinationconfig_fidelity_counterexample :
    mapDestinationconfig numericPortOptions = none ∧
      (mapDestinationconfig bothNamesOptions).map (lookupKey "username") =
        some (some (JVal.str "admin")) ∧
      (mapDestinationconfig hugePortOptions).map (lookupKey "port") =
        some (some (JVal.int 9223372036854775807)) :=
  ⟨rfl, rfl, rfl⟩

/-- Dropping the port entries changes nothing but the port of the output. -/
theorem mapLoop_withoutPort (rest : ConfigMap) (seenA seenB : List String)
    (accA accB outA : ConfigMap)
    (hseen : ∀ k, k ≠ "port" → (k ∈ seenA ↔ k ∈ seenB))
    (hacc : ∀ k, k ≠ "port" → lookupKey k accA = lookupKey k accB)
    (h : mapDestinationconfigLoop seenA rest accA = some outA) :
    ∃ outB, mapDestinationconfigLoop seenB (rest.filter (fun e => e.1 != "port")) accB =
        some outB ∧
      ∀ k, k ≠ "port" → lookupKey k outA = lookupKey k outB := by
  induction rest generalizing seenA seenB accA accB with
  | nil =>
    simp only [mapDestinationconfigLoop, Option.some.injEq] at h
    subst h
    exact ⟨accB, rfl, hacc⟩
  | cons e rest ih =>
    obtain ⟨key, value⟩ := e
    rw [mapDestinationconfigLoop_cons] at h
    by_cases hp : key = "port"
    · subst hp
      have hfilter : ((("port", value) :: rest).filter (fun e => e.1 != "port")) =
          rest.filter (fun e => e.1 != "port") := by
        simp [List.filter_cons]
      rw [hfilter]
      by_cases hs : "port" ∈ seenA
      · simp only [hs, if_true] at h
        exact ih seenA seenB accA accB hseen hacc h
      · simp only [hs, if_false] at h
        cases hc : convertEntry "port" value with
        | none => simp [hc] at h
        | some kv =>
          simp only [hc] at h
          have hfst : kv.1 = "port" := by
            have := convertEntry_fst "port" value kv hc
            simpa using this
          apply ih ("port" :: seenA) seenB (assign kv.1 kv.2 accA) accB _ _ h
          · intro k hk
            have : ¬ k = "port" := hk
            simp [List.mem_cons, this, hseen k hk]
          · intro k hk
            rw [lookupKey_assign, hfst]
            have : ¬ "port" = k := fun heq => hk heq.symm
            simp [this, hacc k hk]
    · have hfilter : (((key, value) :: rest).filter (fun e => e.1 != "port")) =
          (key, value) :: rest.filter (fun e => e.1 != "port") := by
        simp [List.filter_cons, hp]
      rw [hfilter, mapDestinationconfigLoop_cons]
      by_cases hs : key ∈ seenA
      · have hsB : key ∈ seenB := (hseen key hp).1 hs
        simp only [hs, if_true] at h
        simp only [hsB, if_true]
        exact ih seenA seenB accA accB hseen hacc h
      · have hsB : ¬ key ∈ seenB := fun hmem => hs ((hseen key hp).2 hmem)
        simp only [hs, if_false] at h
        simp only [hsB, if_false]
        cases hc : convertEntry key value with
        | none => simp [hc] at h
        | some kv =>
          simp only [hc] at h ⊢
          apply ih (key :: seenA) (key :: seenB) (assign kv.1 kv.2 accA)
            (assign kv.1 kv.2 accB) _ _ h
          · intro k hk
            simp [List.mem_cons, hseen k hk]
          · intro k hk
            rw [lookupKey_assign, lookupKey_assign, hacc k hk]

/-- C13 (amended). Malformed port fallback: for every destination config whose `port` is
text on which `strconv.Atoi` reports a syntax error (nothing after the sign, or a
character that is not a decimal digit after a run of digits within the `uint64` range),
`mapDestinationconfig` does not fail: it returns a map in which `port` is the integer 0
and every other key is mapped exactly as in the output for the config without its port
entry. -/
theorem mapDestinationconfig_malformed_port (config : Option ConfigMap) (s : String)
    (hport : lookupKey "port" (entriesOf config) = some (JVal.str s))
    (hbad : syntaxErrorText s) :
    ∃ out rest, mapDestinationconfig config = some out ∧
      mapDestinationconfig (withoutPort config) = some rest ∧
      lookupKey "port" out = some (JVal.int 0) ∧
      ∀ k, k ≠ "port" → lookupKey k out = lookupKey k rest := by
  have htext : textPort config := by
    intro v hv
    rw [hport] at hv
    exact ⟨s, by injection hv with h; exact h.symm⟩
  have hsome := (mapDestinationconfig_isSome config).2 htext
  cases hout : mapDestinationconfig config with
  | none => simp [hout] at hsome
  | some out =>
    cases config with
    | none => simp [entriesOf, lookupKey] at hport
    | some kvs =>
      have hloop : mapDestinationconfigLoop [] kvs [] = some out := by
        simpa [mapDestinationconfig] using hout
      obtain ⟨rest, hrest, hsame⟩ := mapLoop_withoutPort kvs [] [] [] [] out
        (fun _ _ => Iff.rfl) (fun _ _ => rfl) hloop
      refine ⟨out, rest, rfl, ?_, ?_, hsame⟩
      · simpa [withoutPort, mapDestinationconfig] using hrest
      · have hkey := mapLoop_key "port" (by decide) (by decide) _ _ _ _ hloop
        simp only [List.not_mem_nil, if_false] at hkey
        have hport2 : lookupKey "port" kvs = some (JVal.str s) := by
          simpa [entriesOf] using hport
        rw [hkey, hport2]
        simp [convertEntry, atoi_syntaxError s hbad]

/-- Witness for C13: the port text `abc`. -/
theorem mapDestinationconfig_malformed_port_witness :
    ∃ out rest, mapDestinationconfig wordPortOptions = some out ∧
      mapDestinationconfig (withoutPort wordPortOptions) = some rest ∧
      lookupKey "port" out = some (JVal.int 0) ∧
      ∀ k, k ≠ "port" → lookupKey k out = lookupKey k rest :=
  mapDestinationconfig_malformed_port wordPortOptions "abc" rfl
    (Or.inr ⟨[], 'a', ['b', 'c'], rfl, by simp, by decide, by decide⟩)

/-- C13 (as stated) fails: the port text of twenty nines followed by `x` is not a decimal
integer, yet `strconv.Atoi` stops at the overflow before it reaches the `x` and the port
is mapped to the largest 64-bit integer, not to 0. -/
theorem mapDestinationconfig_malformed_port_counterexample :
    (mapDestinationconfig hugeMalformedPortOptions).map (lookupKey "port") =
      some (some (JVal.int 9223372036854775807)) :=
  rfl

/-! ## Registry client -/

/-- The call reports success whenever a response arrived, whatever its status. -/
theorem RequestToRegistry_ok_iff (exchange : Exchange) :
    (RequestToRegistry exchange).ok = true ↔
      ∃ statusCode body, exchange = Exchange.response statusCode body := by
  cases exchange with
  | requestError => simp [RequestToRegistry]
  | executionError => simp [RequestToRegistry]
  | response statusCode body => simp [RequestToRegistry]

/-- C16 (failing input). A response with status 500 is logged as an error and still
returned with `ok = true`, like a response with status 200. -/
theorem RequestToRegistry_status_500 :
    RequestToRegistry (Exchange.response 500 "failed") = ⟨"failed", true, true⟩ ∧
      RequestToRegistry (Exchange.response 200 "done") = ⟨"done", true, false⟩ ∧
      RequestToRegistry Exchange.executionError = ⟨"", false, true⟩ :=
  ⟨rfl, rfl, rfl⟩

/-! ## Source deleted-flag change -/

/-- What the transition pass does at a source whose `Deleted` flag differs from the
stored one: one `Remove` per destination, in order. -/
theorem diffSource_flag_change (prev : List SourceT) (s p : SourceT)
    (hu : (prev.map SourceT.ID).Nodup) (hel : eligible s = true) (hp : p ∈ prev)
    (hid : p.ID = s.ID) (hdel : s.Deleted ≠ p.Deleted) :
    diffSource ⟨⟨prev⟩, true⟩ s =
      ⟨s.Destinations.map (fun d => Action.Remove (getPipelineId s.ID d.ID)), false⟩ := by
  rw [diffSource_found prev s p hel hu hp hid]
  have : forEach s.Destinations (diffDestination s p) =
      ⟨s.Destinations.flatMap (fun d => [Action.Remove (getPipelineId s.ID d.ID)]), false⟩ :=
    forEach_pure (fun d _ => diffDestination_flagged s p d hdel)
  rw [this, flatMap_unit]

/-- The calls of the transition pass around one source, when the pass does not panic
before it and the source itself does not panic. -/
theorem calculateDifferences_split (br : BlendoRegistry) (l1 l2 : List SourceT) (s : SourceT)
    (hok : (calculateDifferencesAndUpdateRegistry br l1).panicked = false)
    (hs : (diffSource br s).panicked = false) :
    (calculateDifferencesAndUpdateRegistry br (l1 ++ s :: l2)).actions =
      (calculateDifferencesAndUpdateRegistry br l1).actions ++ (diffSource br s).actions ++
        (calculateDifferencesAndUpdateRegistry br l2).actions := by
  unfold calculateDifferencesAndUpdateRegistry at hok ⊢
  rw [forEach_append, forEach_cons, andThen_actions_of_ok _ _ hok,
    andThen_actions_of_ok _ _ hs, List.append_assoc]

/-- C17 (amended). Source deleted-flag change: with `isConfigSet = true` and unique IDs in
the stored snapshot, for every eligible source `s` of the new snapshot found in the stored
one with a different `Deleted` flag (either direction), and provided the transition pass
does not panic in the mapper on a source before `s`, the calls of the pass are those for
the sources before `s`, then exactly `Remove` for every destination of `s` in order (no
`Apply`), then those for the sources after `s`, regardless of destination flags and
configs. -/
theorem calculateDifferences_flag_change (prev l1 l2 : List SourceT) (s p : SourceT)
    (hu : uniqueIDs prev) (hel : eligible s = true) (hp : p ∈ prev) (hid : p.ID = s.ID)
    (hdel : s.Deleted ≠ p.Deleted)
    (hok : (calculateDifferencesAndUpdateRegistry ⟨⟨prev⟩, true⟩ l1).panicked = false) :
    (calculateDifferencesAndUpdateRegistry ⟨⟨prev⟩, true⟩ (l1 ++ s :: l2)).actions =
      (calculateDifferencesAndUpdateRegistry ⟨⟨prev⟩, true⟩ l1).actions ++
        s.Destinations.map (fun d => Action.Remove (getPipelineId s.ID d.ID)) ++
        (calculateDifferencesAndUpdateRegistry ⟨⟨prev⟩, true⟩ l2).actions := by
  have h := diffSource_flag_change prev s p hu.1 hel hp hid hdel
  rw [calculateDifferences_split _ l1 l2 s hok (by rw [h]), h]

/-- Witness for C17: `S1` becomes deleted while its two destinations change, between an
unchanged `S2` and a new one. -/
theorem calculateDifferences_flag_change_witness :
    (calculateDifferencesAndUpdateRegistry ⟨⟨[srcS2, srcS1 [destD1, destD2]]⟩, true⟩
        ([srcS2] ++ srcS1Deleted [destD1Moved, destD2Off] :: [])).actions =
      (calculateDifferencesAndUpdateRegistry ⟨⟨[srcS2, srcS1 [destD1, destD2]]⟩, true⟩
          [srcS2]).actions ++
        (srcS1Deleted [destD1Moved, destD2Off]).Destinations.map
          (fun d => Action.Remove (getPipelineId (srcS1Deleted [destD1Moved, destD2Off]).ID d.ID)) ++
        (calculateDifferencesAndUpdateRegistry ⟨⟨[srcS2, srcS1 [destD1, destD2]]⟩, true⟩
          []).actions :=
  calculateDifferences_flag_change [srcS2, srcS1 [destD1, destD2]] [srcS2] []
    (srcS1Deleted [destD1Moved, destD2Off]) (srcS1 [destD1, destD2]) (by decide) rfl
    (by simp) rfl (by decide) rfl

/-- C17 (as stated) fails: the new source `S0` comes first and the mapper panics on its
numeric port, so the pass ends before it reaches `S1`, whose `Deleted` flag changed, and
no `Remove` is issued for `S1_D1`. -/
theorem calculateDifferences_flag_change_counterexample :
    uniqueIDs [srcS1 [destD1]] ∧ uniqueIDs [srcS0Numeric, srcS1Deleted [destD1]] ∧
      calculateDifferencesAndUpdateRegistry ⟨⟨[srcS1 [destD1]]⟩, true⟩
        [srcS0Numeric, srcS1Deleted [destD1]] = ⟨[], true⟩ :=
  ⟨by decide, by decide, rfl⟩

/-! ## New sources and destinations -/

/-- C18 (amended). New source or new destination after the first snapshot: with
`isConfigSet = true` and unique IDs, for a destination `d` of an eligible source `s` of
the new snapshot such that either no stored source has the ID of `s`, or the stored
source with that ID has the same `Deleted` flag and no destination with the ID of `d`,
and provided the run does not panic in the mapper, the mapper returns `cfg` on the pair
when it is not flagged deleted, and no other pair of either snapshot has the same
pipeline ID string, the calls issued for the pipeline ID of `(s, d)` are exactly one:
`Remove` if the source or the destination is flagged `Deleted`, otherwise `Apply` with
`cfg`, whatever `IsConnectionEnabled` and `IsProcessorEnabled` are. -/
theorem handleSources_new_pair (prev cur : List SourceT) (s : SourceT) (d : DestinationT)
    (cfg : BlendoRegistryPipelineConfigT) (huP : uniqueIDs prev) (huC : uniqueIDs cur)
    (hs : s ∈ cur) (hel : eligible s = true) (hd : d ∈ s.Destinations)
    (hnew : (∀ p ∈ prev, p.ID ≠ s.ID) ∨
      ∃ p ∈ prev, p.ID = s.ID ∧ s.Deleted = p.Deleted ∧ ∀ e ∈ p.Destinations, e.ID ≠ d.ID)
    (hcfg : (s.Deleted || d.Deleted) = false → getConfig s d = some cfg)
    (hpid : pidUnique prev cur s.ID d.ID)
    (hok : (handleSources ⟨⟨prev⟩, true⟩ cur).panicked = false) :
    (handleSources ⟨⟨prev⟩, true⟩ cur).actions.filter
        (fun a => a.id == getPipelineId s.ID d.ID) =
      [if s.Deleted || d.Deleted then Action.Remove (getPipelineId s.ID d.ID)
        else Action.Apply (getPipelineId s.ID d.ID) cfg] := by
  have hok2 : (calculateDifferencesAndUpdateRegistry ⟨⟨prev⟩, true⟩ cur).panicked = false := by
    simp only [handleSources, if_true] at hok
    exact andThen_ok_right _ _ hok
  rw [handleSources_actions, List.filter_append]
  -- the orphan pass issues nothing for this pipeline ID
  have horph : (deleteRemovedSourcesDestinations ⟨⟨prev⟩, true⟩ cur).actions.filter
      (fun a => a.id == getPipelineId s.ID d.ID) = [] := by
    rw [deleteRemoved_actions]
    apply filter_flatMap_nil
    intro q hq a ha
    obtain ⟨_, e, he, hae, hmiss⟩ := mem_removeVanished cur q a huC.1 ha
    by_contra hcontra
    have hq2 : a.id = getPipelineId s.ID d.ID := by simpa using hcontra
    rw [hae] at hq2
    obtain ⟨h1, h2⟩ := hpid q (List.mem_append_left _ hq) e he hq2
    exact hmiss s hs h1.symm d hd h2.symm
  rw [horph, List.nil_append]
  unfold calculateDifferencesAndUpdateRegistry at hok2 ⊢
  obtain ⟨hacts, hoks⟩ := forEach_ok_actions hok2
  rw [hacts, filter_flatMap_unique cur s _ _ (List.Nodup.of_map _ huC.1) hs]
  · -- within `s` the destinations are handled by one body `f`
    have hbody : ∃ f : DestinationT → Effect,
        diffSource ⟨⟨prev⟩, true⟩ s = forEach s.Destinations f ∧
          (∀ e ∈ s.Destinations, ∀ a ∈ (f e).actions, a.id = getPipelineId s.ID e.ID) ∧
          f d = registerNew s d := by
      rcases hnew with hn | ⟨p, hp, hid, hdel, hmiss⟩
      · exact ⟨registerNew s, diffSource_new _ s hel (Or.inr hn),
          fun e _ a ha => registerNew_ids s e a ha, rfl⟩
      · exact ⟨diffDestination s p, diffSource_found prev s p hel huP.1 hp hid,
          fun e _ a ha => diffDestination_ids s p e a ha,
          diffDestination_new s p d hdel hmiss⟩
    obtain ⟨f, hf, hids, hfd⟩ := hbody
    have hoks2 := hoks s hs
    rw [hf] at hoks2 ⊢
    obtain ⟨hacts2, _⟩ := forEach_ok_actions hoks2
    rw [hacts2, filter_flatMap_unique s.Destinations d _ _
      (List.Nodup.of_map _ (huC.2 s hs)) hd]
    · rw [hfd, registerNew_of_config s d cfg hcfg]
      cases hdel : (s.Deleted || d.Deleted) <;> simp [Action.id]
    · intro e he hne a ha
      have hae := hids e he a ha
      by_contra hcontra
      have hq2 : a.id = getPipelineId s.ID d.ID := by simpa using hcontra
      obtain ⟨_, h2⟩ := hpid s (List.mem_append_right _ hs) e he (by rw [← hae, hq2])
      exact hne (destination_eq_of_ID (huC.2 s hs) he hd h2)
  · intro c hc hne a ha
    obtain ⟨_, e, he, hae⟩ := diffSource_ids _ c a ha
    by_contra hcontra
    have hq2 : a.id = getPipelineId s.ID d.ID := by simpa using hcontra
    obtain ⟨h1, _⟩ := hpid c (List.mem_append_right _ hc) e he (by rw [← hae, hq2])
    exact hne (source_eq_of_ID huC.1 hc hs h1)

/-- Witness for C18: `D2` is new in the stored source `S1`, with its connection disabled. -/
theorem handleSources_new_pair_witness :
    (handleSources ⟨⟨[srcS1 [destD1]]⟩, true⟩ [srcS1 [destD1, destD2Off]]).actions.filter
        (fun a => a.id == getPipelineId (srcS1 [destD1, destD2Off]).ID destD2Off.ID) =
      [if (srcS1 [destD1, destD2Off]).Deleted || destD2Off.Deleted then
          Action.Remove (getPipelineId (srcS1 [destD1, destD2Off]).ID destD2Off.ID)
        else Action.Apply (getPipelineId (srcS1 [destD1, destD2Off]).ID destD2Off.ID)
          ((getConfig (srcS1 [destD1, destD2Off]) destD2Off).getD zeroConfig)] :=
  handleSources_new_pair [srcS1 [destD1]] [srcS1 [destD1, destD2Off]]
    (srcS1 [destD1, destD2Off]) destD2Off
    ((getConfig (srcS1 [destD1, destD2Off]) destD2Off).getD zeroConfig)
    (by decide) (by decide) (by simp) rfl (by simp [srcS1])
    (Or.inr ⟨srcS1 [destD1], by simp, rfl, rfl, by decide⟩) (fun _ => rfl) (by decide) rfl

/-- C18 (as stated) fails, in two ways. First, the new source `S1` holds a destination
with a numeric port: the mapper panics and no call is issued for the pair. Second, the
new sources `a` (destination `b_c`) and `a_b` (destination `c`) share the pipeline ID
`a_b_c`, which receives two calls. -/
theorem handleSources_new_pair_counterexample :
    (uniqueIDs [srcS2] ∧ uniqueIDs [srcS2, srcS1 [destD1Numeric]] ∧
      handleSources ⟨⟨[srcS2]⟩, true⟩ [srcS2, srcS1 [destD1Numeric]] = ⟨[], true⟩) ∧
    (uniqueIDs [srcS2, srcA, srcAB] ∧
      (handleSources ⟨⟨[srcS2]⟩, true⟩ [srcS2, srcA, srcAB]).panicked = false ∧
      ((handleSources ⟨⟨[srcS2]⟩, true⟩ [srcS2, srcA, srcAB]).actions.filter
          (fun a => a.id == getPipelineId "a" "b_c")).length = 2) :=
  ⟨⟨by decide, by decide, rfl⟩, by decide, rfl, rfl⟩

/-! ## Order and multiplicity -/

theorem forEach_ids_sublist {α : Type} (xs : List α) (f : α → Effect) (g : α → List String)
    (h : ∀ x ∈ xs, ((f x).actions.map Action.id).Sublist (g x)) :
    ((forEach xs f).actions.map Action.id).Sublist (xs.flatMap g) := by
  induction xs with
  | nil => simp [Effect.skip]
  | cons x xs ih =>
    have h1 := h x (List.mem_cons_self _ _)
    have h2 := ih (fun y hy => h y (List.mem_cons_of_mem _ hy))
    rw [forEach_cons, List.flatMap_cons]
    cases hp : (f x).panicked with
    | true =>
      have : (f x).andThen (forEach xs f) = f x := by simp [Effect.andThen, hp]
      rw [this]
      exact h1.trans (List.sublist_append_left _ _)
    | false =>
      rw [andThen_actions_of_ok _ _ hp, List.map_append]
      exact List.Sublist.append h1 h2

theorem at_most_one_id (e : Effect) (id : String) (hlen : e.actions.length ≤ 1)
    (hid : ∀ a ∈ e.actions, a.id = id) : (e.actions.map Action.id).Sublist [id] := by
  cases hacts : e.actions with
  | nil => simp
  | cons a rest =>
    cases rest with
    | nil =>
      have := hid a (by rw [hacts]; exact List.mem_cons_self _ _)
      simp [this]
    | cons b rest2 =>
      rw [hacts] at hlen
      simp at hlen

theorem compareDestination_length (source prevSource : SourceT)
    (destination prevDestination : DestinationT) :
    (compareDestination source prevSource destination prevDestination).actions.length ≤ 1 := by
  unfold compareDestination
  simp only
  split
  · simp [deleteConfigFromRegistry]
  · split
    · cases hc : getConfig source destination <;>
        simp [Effect.call, Effect.panic, putConfigToRegistry]
    · simp [Effect.skip]

theorem registerNew_length (source : SourceT) (destination : DestinationT) :
    (registerNew source destination).actions.length ≤ 1 := by
  unfold registerNew
  simp only
  split
  · simp [deleteConfigFromRegistry]
  · cases hc : getConfig source destination <;>
      simp [Effect.call, Effect.panic, putConfigToRegistry]

theorem diffDestination_length (source prevSource : SourceT) (destination : DestinationT) :
    (diffDestination source prevSource destination).actions.length ≤ 1 := by
  unfold diffDestination
  simp only
  split
  · simp [deleteConfigFromRegistry]
  · rcases forFirst_cases prevSource.Destinations
        (fun prevDestination => prevDestination.ID == destination.ID)
        (compareDestination source prevSource destination) with ⟨_, hf⟩ | ⟨pd, _, _, hf⟩
    · rw [hf]
      simpa using registerNew_length source destination
    · rw [hf]
      simpa using compareDestination_length source prevSource destination pd

theorem diffSource_ids_sublist (br : BlendoRegistry) (source : SourceT)
    (hel : eligible source = true) :
    ((diffSource br source).actions.map Action.id).Sublist
      (source.Destinations.map (fun d => getPipelineId source.ID d.ID)) := by
  have hcat : source.SourceDefinition.Category = "cloud" := by simpa [eligible] using hel
  have hnew : ((forEach source.Destinations (registerNew source)).actions.map Action.id).Sublist
      (source.Destinations.map (fun d => getPipelineId source.ID d.ID)) := by
    rw [← flatMap_unit source.Destinations (fun d => getPipelineId source.ID d.ID)]
    exact forEach_ids_sublist _ _ _ (fun e _ =>
      at_most_one_id _ _ (registerNew_length source e) (registerNew_ids source e))
  unfold diffSource
  simp only [hcat]
  cases hset : br.isConfigSet with
  | false => simpa using hnew
  | true =>
    rcases forFirst_cases br.currentSourceJSON.Sources
        (fun prevSource => prevSource.ID == source.ID)
        (fun prevSource => forEach source.Destinations (diffDestination source prevSource)) with
      ⟨_, hf⟩ | ⟨p, _, _, hf⟩
    · simpa [hf] using hnew
    · simp only [bne_self_eq_false, Bool.false_eq_true, if_false, if_true, hf, Bool.not_true,
        andThen_skip]
      rw [← flatMap_unit source.Destinations (fun d => getPipelineId source.ID d.ID)]
      exact forEach_ids_sublist _ _ _ (fun e _ =>
        at_most_one_id _ _ (diffDestination_length source p e) (diffDestination_ids source p e))

theorem removeVanished_ids_sublist (sources : List SourceT) (prevSource : SourceT)
    (hel : eligible prevSource = true) :
    ((removeVanished sources prevSource).actions.map Action.id).Sublist
      (prevSource.Destinations.map (fun d => getPipelineId prevSource.ID d.ID)) := by
  rw [← flatMap_unit prevSource.Destinations (fun d => getPipelineId prevSource.ID d.ID)]
  rcases removeVanished_cases sources prevSource hel with ⟨_, h⟩ | ⟨c, _, hcid, h⟩
  · rw [h]
    exact forEach_ids_sublist _ _ _ (fun e _ => by simp [deleteConfigFromRegistry, Action.id])
  · rw [h]
    apply forEach_ids_sublist
    intro e _
    rcases removeVanishedDestination_cases c e with ⟨_, h2⟩ | ⟨_, h2⟩
    · rw [h2]; simp [Effect.skip]
    · rw [h2, hcid]; simp [deleteConfigFromRegistry, Action.id]

/-- C19. Order and multiplicity of actions: for every store state and new snapshot, the
calls of `handleSources` are those of the orphan pass (none when `isConfigSet = false`)
followed by those of the transition pass; the orphan pass issues only `Remove`s, whose
pipeline IDs in order form a subsequence of the pipeline IDs of the eligible pairs of the
stored snapshot in its order; the pipeline IDs of the calls of the transition pass, in
order, form a subsequence of the pipeline IDs of the eligible pairs of the new snapshot in
its order, so each pair gets at most one call. -/
theorem handleSources_order (br : BlendoRegistry) (cur : List SourceT) :
    (handleSources br cur).actions =
        (if br.isConfigSet then (deleteRemovedSourcesDestinations br cur).actions else []) ++
          (calculateDifferencesAndUpdateRegistry br cur).actions ∧
      (∀ a ∈ (deleteRemovedSourcesDestinations br cur).actions, ∃ id, a = Action.Remove id) ∧
      ((deleteRemovedSourcesDestinations br cur).actions.map Action.id).Sublist
        (pipelineIDs br.currentSourceJSON.Sources) ∧
      ((calculateDifferencesAndUpdateRegistry br cur).actions.map Action.id).Sublist
        (pipelineIDs cur) := by
  refine ⟨?_, ?_, ?_, ?_⟩
  · unfold handleSources
    cases hset : br.isConfigSet with
    | false => simp
    | true =>
      simp only [if_true]
      exact andThen_actions_of_ok _ _ (deleteRemovedSourcesDestinations_ok _ _)
  · intro a ha
    obtain ⟨p, _, hp⟩ := mem_forEach_actions ha
    exact removeVanished_removes _ _ _ hp
  · unfold deleteRemovedSourcesDestinations pipelineIDs
    rw [← forEach_filter eligible (fun p _ hp => removeVanished_ineligible cur p hp)]
    exact forEach_ids_sublist _ _ _ (fun p hp =>
      removeVanished_ids_sublist cur p (List.mem_filter.1 hp).2)
  · unfold calculateDifferencesAndUpdateRegistry pipelineIDs
    rw [← forEach_filter eligible (fun s _ hs => diffSource_ineligible br s hs)]
    exact forEach_ids_sublist _ _ _ (fun s hs =>
      diffSource_ids_sublist br s (List.mem_filter.1 hs).2)

/-! ## Apply on a deleted pair -/

/-- C20 (failing input). Stored: eligible `S1` with `D1` flagged deleted; new snapshot:
the same with `IsProcessorEnabled` of `D1` switched off. The `Deleted` flag did not
change, so the comparison takes its second branch and issues `Apply` for `S1_D1`,
although the destination is flagged deleted. -/
theorem handleSources_apply_on_deleted :
    destD1DeletedPaused.Deleted = true ∧
      handleSources ⟨⟨[srcS1 [destD1Deleted]]⟩, true⟩ [srcS1 [destD1DeletedPaused]] =
        ⟨[Action.Apply "S1_D1"
          ((getConfig (srcS1 [destD1DeletedPaused]) destD1DeletedPaused).getD zeroConfig)],
          false⟩ :=
  ⟨rfl, rfl⟩

end Blendo
